import Mathlib

/-!
# XO: a verification development of the tic-tac-toe engine in `src/main.cpp`

The class `TicTacToe` of `src/main.cpp` is embedded as a record of its data
members and one Lean function per member function.  Widgets (button texts,
enabled flags, the status label) are presentation only and are left out; the
two effects of the shell that steer control flow are kept as data:

* `QMessageBox::information` in `gameOver` appends to the log `dialogs`;
* `QTimer::singleShot(500, ..., makeAIMove)` increments the counter `aiTimers`.
-/

namespace XO

/-- The three `char` constants the board ever holds:
`EMPTY = ' '`, `PLAYER1 = 'X'`, `PLAYER2 = 'O'` (lines 40-42). -/
inductive Mark
  | EMPTY
  | PLAYER1
  | PLAYER2
  deriving DecidableEq, Repr

open Mark

/-- The member `std::vector<char> board`; `resetGame` is the only assignment to
the vector itself and always gives it nine cells (line 96). -/
abbrev Board := Mathlib.Vector Mark 9

/-- The message passed to `gameOver` (lines 128 and 133). -/
inductive Dialog
  | wins (player : Mark)
  | tie
  deriving DecidableEq, Repr

/-- Data members of the class `TicTacToe` (lines 44-46), with the log of
game-over dialogs shown and the number of pending single-shot AI timers. -/
structure TicTacToe where
  mode : Int
  currentPlayer : Mark
  board : Board
  aiTimers : Nat
  dialogs : List Dialog
  deriving DecidableEq

/-- Why a member function does not return normally: `outOfRange` is an access
`board[index]` with `index` outside `0..8` (undefined behaviour in C++);
`depthExceeded` is the recursion bound of `minimaxFuel`, which the source does
not have and which is shown never to be reached. -/
inductive Fault
  | outOfRange
  | depthExceeded
  deriving DecidableEq, Repr

/-- `std::numeric_limits<int>::min()` for a 32-bit `int`. -/
def INT_MIN : Int := -2147483648

/-- `std::numeric_limits<int>::max()` for a 32-bit `int`. -/
def INT_MAX : Int := 2147483647

/-- `checkWin` (lines 162-171). -/
def checkWin (board : Board) (player : Mark) : Bool :=
  (board.get 0 == player && board.get 1 == player && board.get 2 == player) ||
  (board.get 3 == player && board.get 4 == player && board.get 5 == player) ||
  (board.get 6 == player && board.get 7 == player && board.get 8 == player) ||
  (board.get 0 == player && board.get 3 == player && board.get 6 == player) ||
  (board.get 1 == player && board.get 4 == player && board.get 7 == player) ||
  (board.get 2 == player && board.get 5 == player && board.get 8 == player) ||
  (board.get 0 == player && board.get 4 == player && board.get 8 == player) ||
  (board.get 2 == player && board.get 4 == player && board.get 6 == player)

/-- `checkTie` (lines 173-175): `std::all_of` over the whole vector. -/
def checkTie (board : Board) : Bool :=
  board.toList.all (fun c => c != EMPTY)

/-- The index values of `for (int i = 0; i < 9; i++)`, in the order of the loop. -/
def cells : List (Fin 9) := [0, 1, 2, 3, 4, 5, 6, 7, 8]

/-- A `for` loop over board indices whose body may fail to return; the loop
state is passed from one iteration to the next. -/
def forCells {σ : Type} (body : Fin 9 → σ → Except Fault σ) :
    List (Fin 9) → σ → Except Fault σ
  | [], s => .ok s
  | i :: rest, s =>
    match body i s with
    | .error e => .error e
    | .ok s1 => forCells body rest s1

/-- `minimax` (lines 177-193) with a bound on the recursion depth.  The
parameter `board` is a reference to the member `board` at the only call sites
(lines 187 and 201), so `checkWin` and `checkTie`, which read the member, read
the same vector.  The vector is mutated in place (lines 186, 188) and is
returned with the score. -/
def minimaxFuel : Nat → Board → Bool → Except Fault (Int × Board)
  | 0, _, _ => .error Fault.depthExceeded
  | fuel + 1, board, isMaximizing =>
    if checkWin board PLAYER1 then .ok (1, board)
    else if checkWin board PLAYER2 then .ok (-1, board)
    else if checkTie board then .ok (0, board)
    else
      forCells (fun i (st : Int × Board) =>
        if st.2.get i = EMPTY then
          match minimaxFuel fuel (st.2.set i (if isMaximizing then PLAYER1 else PLAYER2))
              (!isMaximizing) with
          | .error e => .error e
          | .ok (score, board1) =>
            .ok (if isMaximizing then max score st.1 else min score st.1, board1.set i EMPTY)
        else .ok st) cells (if isMaximizing then INT_MIN else INT_MAX, board)

/-- `minimax` (lines 177-193): ten levels of recursion are enough for nine cells. -/
def minimax (board : Board) (isMaximizing : Bool) : Except Fault (Int × Board) :=
  minimaxFuel 10 board isMaximizing

/-- One iteration of the loop of `bestMove` (lines 199-207) on the loop state
`(move, bestScore, board)`. -/
def bestMoveBody (i : Fin 9) (st : Int × Int × Board) : Except Fault (Int × Int × Board) :=
  if st.2.2.get i = EMPTY then
    match minimax (st.2.2.set i PLAYER1) false with
    | .error e => .error e
    | .ok (score, board1) =>
      if score > st.2.1 then .ok ((i.val : Int), score, board1.set i EMPTY)
      else .ok (st.1, st.2.1, board1.set i EMPTY)
  else .ok st

/-- `bestMove` (lines 195-210): the returned index (`-1` for none) and the
object after the call. -/
def bestMove (g : TicTacToe) : Except Fault (Int × TicTacToe) :=
  match forCells bestMoveBody cells (-1, INT_MIN, g.board) with
  | .error e => .error e
  | .ok (move, _, board) => .ok (move, { g with board := board })

/-- `resetGame` (lines 95-110). -/
def resetGame (g : TicTacToe) : TicTacToe :=
  let g1 := { g with board := Mathlib.Vector.replicate 9 EMPTY, currentPlayer := PLAYER1 }
  if g1.mode = 2 ∧ g1.currentPlayer = PLAYER1 then { g1 with aiTimers := g1.aiTimers + 1 }
  else g1

/-- `gameOver` (lines 152-159): the dialog is shown, then the game is reset. -/
def gameOver (g : TicTacToe) (message : Dialog) : TicTacToe :=
  resetGame { g with dialogs := g.dialogs ++ [message] }

/-- `makeMove` (lines 123-143); `board[index]` is not range-checked. -/
def makeMove (g : TicTacToe) (index : Int) : Except Fault TicTacToe :=
  if h : 0 ≤ index ∧ index < 9 then
    let g1 := { g with board := g.board.set ⟨index.toNat, by omega⟩ g.currentPlayer }
    if checkWin g1.board g1.currentPlayer then
      .ok (gameOver g1 (Dialog.wins g1.currentPlayer))
    else if checkTie g1.board then
      .ok (gameOver g1 Dialog.tie)
    else
      let g2 := { g1 with
        currentPlayer := if g1.currentPlayer = PLAYER1 then PLAYER2 else PLAYER1 }
      if g2.mode = 2 ∧ g2.currentPlayer = PLAYER1 then
        .ok { g2 with aiTimers := g2.aiTimers + 1 }
      else .ok g2
  else .error Fault.outOfRange

/-- `makeAIMove` (lines 145-150). -/
def makeAIMove (g : TicTacToe) : Except Fault TicTacToe :=
  match bestMove g with
  | .error e => .error e
  | .ok (move, g1) => if move ≠ -1 then makeMove g1 move else .ok g1

/-- `handleButtonClick` (lines 23-27); `board[index]` is not range-checked. -/
def handleButtonClick (g : TicTacToe) (index : Int) : Except Fault TicTacToe :=
  if h : 0 ≤ index ∧ index < 9 then
    if g.board.get ⟨index.toNat, by omega⟩ ≠ EMPTY ∨
        (g.mode = 2 ∧ g.currentPlayer = PLAYER1)
    then .ok g
    else makeMove g index
  else .error Fault.outOfRange

/-- `setPlayerVsPlayer` (lines 29-32). -/
def setPlayerVsPlayer (g : TicTacToe) : TicTacToe :=
  resetGame { g with mode := 1 }

/-- `setPlayerVsAI` (lines 34-37). -/
def setPlayerVsAI (g : TicTacToe) : TicTacToe :=
  resetGame { g with mode := 2 }

/-- A pending `QTimer::singleShot(500, this, &TicTacToe::makeAIMove)` fires. -/
def timerFired (g : TicTacToe) : Except Fault TicTacToe :=
  if 0 < g.aiTimers then makeAIMove { g with aiTimers := g.aiTimers - 1 } else .ok g

/-- The object after the constructor (lines 17-20): member initialisers, then
`resetGame`. -/
def initial : TicTacToe :=
  resetGame { mode := 1, currentPlayer := PLAYER1, board := Mathlib.Vector.replicate 9 EMPTY,
              aiTimers := 0, dialogs := [] }

/-! ## The outcome as the specification words it -/

/-- The eight lines of the specification: three rows, three columns, two diagonals. -/
def lines : List (Fin 9 × Fin 9 × Fin 9) :=
  [(0, 1, 2), (3, 4, 5), (6, 7, 8), (0, 3, 6), (1, 4, 7), (2, 5, 8), (0, 4, 8), (2, 4, 6)]

/-- Mark `p` holds all three cells of at least one of the eight lines. -/
def ownsLine (board : Board) (p : Mark) : Prop :=
  ∃ l ∈ lines, board.get l.1 = p ∧ board.get l.2.1 = p ∧ board.get l.2.2 = p

instance (board : Board) (p : Mark) : Decidable (ownsLine board p) := by
  unfold ownsLine
  infer_instance

/-- The outcomes of the specification (spec.md, section 3). -/
inductive Outcome
  | InProgress
  | FirstWins
  | SecondWins
  | Draw
  deriving DecidableEq, Repr

/-- The outcome of the specification as a function of the board alone (spec.md,
section 4.1): a side wins iff it owns a line, a draw iff no cell is `EMPTY`
and no side has won; the win is checked before the draw. -/
def specOutcome (board : Board) : Outcome :=
  if ownsLine board PLAYER1 then Outcome.FirstWins
  else if ownsLine board PLAYER2 then Outcome.SecondWins
  else if ∀ i, board.get i ≠ EMPTY then Outcome.Draw
  else Outcome.InProgress

/-- The game-over dialog that reports an outcome; none while the game is in progress. -/
def dialogOf : Outcome → List Dialog
  | Outcome.InProgress => []
  | Outcome.FirstWins => [Dialog.wins PLAYER1]
  | Outcome.SecondWins => [Dialog.wins PLAYER2]
  | Outcome.Draw => [Dialog.tie]

/-- The objects reached from a fresh game by moves on `EMPTY` cells. -/
inductive Reachable : TicTacToe → Prop
  | fresh (g : TicTacToe) : Reachable (resetGame g)
  | move (g g1 : TicTacToe) (i : Fin 9) : Reachable g → g.board.get i = EMPTY →
      makeMove g (i.val : Int) = .ok g1 → Reachable g1

/-- The game in which `n` moves in a row are made by `makeAIMove`, whoever is to move. -/
def selfPlay : Nat → TicTacToe → Except Fault TicTacToe
  | 0, g => .ok g
  | n + 1, g =>
    match makeAIMove g with
    | .error e => .error e
    | .ok g1 => selfPlay n g1

/-- A sequence of clicks on the buttons with the given ids. -/
def clicks : List Int → TicTacToe → Except Fault TicTacToe
  | [], g => .ok g
  | index :: rest, g =>
    match handleButtonClick g index with
    | .error e => .error e
    | .ok g1 => clicks rest g1

/-- The object with the given board and side to move, in player-versus-player
mode, with no timer pending and no dialog shown yet. -/
def position (board : Board) (currentPlayer : Mark) : TicTacToe :=
  { mode := 1, currentPlayer := currentPlayer, board := board, aiTimers := 0, dialogs := [] }

/-! ## The search as a function of the board

`minimaxFuel` passes the vector through every call.  `scoreFuel` is the same
recursion on values only; `minimaxFuel_eq` shows that `minimaxFuel` returns
this score together with the vector it was given. -/

/-- The number of `EMPTY` cells of a board. -/
def emptyCount (board : Board) : Nat :=
  (Finset.univ.filter fun i : Fin 9 => board.get i = EMPTY).card

/-- The loop of `minimax` (lines 184-191) on the running `bestScore` alone:
`empty i` tells whether cell `i` is `EMPTY`, `child i` is the score of the
recursive call for cell `i`. -/
def foldBest (isMaximizing : Bool) (empty : Fin 9 → Bool) (child : Fin 9 → Int) :
    List (Fin 9) → Int → Int
  | [], bestScore => bestScore
  | i :: rest, bestScore =>
    foldBest isMaximizing empty child rest
      (if empty i then
        (if isMaximizing then max (child i) bestScore else min (child i) bestScore)
       else bestScore)

/-- The score computed by `minimax` (lines 177-193), without the vector. -/
def scoreFuel : Nat → Board → Bool → Int
  | 0, _, _ => 0
  | fuel + 1, board, isMaximizing =>
    if checkWin board PLAYER1 then 1
    else if checkWin board PLAYER2 then -1
    else if checkTie board then 0
    else
      foldBest isMaximizing (fun i => board.get i == EMPTY)
        (fun i => scoreFuel fuel (board.set i (if isMaximizing then PLAYER1 else PLAYER2))
          (!isMaximizing))
        cells (if isMaximizing then INT_MIN else INT_MAX)

/-- The score `bestMove` compares for cell `i` (lines 200-201): `PLAYER1` placed
at `i`, then `minimax(board, false)`. -/
def cellScore (board : Board) (i : Fin 9) : Int :=
  scoreFuel 10 (board.set i PLAYER1) false

/-- The loop of `bestMove` (lines 198-208) on the pair `(move, bestScore)` alone. -/
def pickBest (board : Board) : List (Fin 9) → Int × Int → Int × Int
  | [], st => st
  | i :: rest, st =>
    pickBest board rest
      (if board.get i = EMPTY then
        (if cellScore board i > st.2 then ((i.val : Int), cellScore board i) else st)
       else st)

/-! ## A certified bound checker for scores

Evaluating `scoreFuel` on a board with many `EMPTY` cells visits the whole game
tree.  `atLeast` and `atMost` decide a bound on the score instead, stopping at
the first cell that settles a node; the nine cells are passed as separate
arguments.  `atLeast_sound` and `atMost_sound` relate them to `scoreFuel`. -/

/-- The board with the given cells. -/
def mkBoard (a0 a1 a2 a3 a4 a5 a6 a7 a8 : Mark) : Board :=
  ⟨[a0, a1, a2, a3, a4, a5, a6, a7, a8], rfl⟩

/-- Is the mark `EMPTY`? -/
def isE : Mark → Bool
  | EMPTY => true
  | _ => false

/-- Is the mark `PLAYER1`? -/
def isX : Mark → Bool
  | PLAYER1 => true
  | _ => false

/-- Is the mark `PLAYER2`? -/
def isO : Mark → Bool
  | PLAYER2 => true
  | _ => false

/-- Do three cells all satisfy `p`? -/
def line3 (p : Mark → Bool) (a b c : Mark) : Bool :=
  p a && p b && p c

/-- The eight lines of `checkWin` on nine separate cells. -/
def wins9 (p : Mark → Bool) (a0 a1 a2 a3 a4 a5 a6 a7 a8 : Mark) : Bool :=
  line3 p a0 a1 a2 ||
      line3 p a3 a4 a5 ||
      line3 p a6 a7 a8 ||
      line3 p a0 a3 a6 ||
      line3 p a1 a4 a7 ||
      line3 p a2 a5 a8 ||
      line3 p a0 a4 a8 ||
      line3 p a2 a4 a6

/-- The test of `checkTie` on nine separate cells. -/
def full9 (a0 a1 a2 a3 a4 a5 a6 a7 a8 : Mark) : Bool :=
  !isE a0 && (!isE a1 && (!isE a2 && (!isE a3 && (!isE a4 && (!isE a5 &&
    (!isE a6 && (!isE a7 && (!isE a8))))))))

/-- Decides `t ≤ score` for the board `a0 .. a8`; `false` when undecided. -/
def atLeast :
    Nat → Mark → Mark → Mark → Mark → Mark → Mark → Mark → Mark → Mark → Bool → Int → Bool
  | 0, _, _, _, _, _, _, _, _, _, _, _ => false
  | fuel + 1, a0, a1, a2, a3, a4, a5, a6, a7, a8, isMaximizing, t =>
    if wins9 isX a0 a1 a2 a3 a4 a5 a6 a7 a8 then decide (t ≤ 1)
    else if wins9 isO a0 a1 a2 a3 a4 a5 a6 a7 a8 then decide (t ≤ -1)
    else if full9 a0 a1 a2 a3 a4 a5 a6 a7 a8 then decide (t ≤ 0)
    else match isMaximizing with
      | true =>
        (isE a0 && atLeast fuel PLAYER1 a1 a2 a3 a4 a5 a6 a7 a8 false t) ||
        ((isE a1 && atLeast fuel a0 PLAYER1 a2 a3 a4 a5 a6 a7 a8 false t) ||
        ((isE a2 && atLeast fuel a0 a1 PLAYER1 a3 a4 a5 a6 a7 a8 false t) ||
        ((isE a3 && atLeast fuel a0 a1 a2 PLAYER1 a4 a5 a6 a7 a8 false t) ||
        ((isE a4 && atLeast fuel a0 a1 a2 a3 PLAYER1 a5 a6 a7 a8 false t) ||
        ((isE a5 && atLeast fuel a0 a1 a2 a3 a4 PLAYER1 a6 a7 a8 false t) ||
        ((isE a6 && atLeast fuel a0 a1 a2 a3 a4 a5 PLAYER1 a7 a8 false t) ||
        ((isE a7 && atLeast fuel a0 a1 a2 a3 a4 a5 a6 PLAYER1 a8 false t) ||
        ((isE a8 && atLeast fuel a0 a1 a2 a3 a4 a5 a6 a7 PLAYER1 false t)))))))))
      | false =>
        (!isE a0 || atLeast fuel PLAYER2 a1 a2 a3 a4 a5 a6 a7 a8 true t) &&
        ((!isE a1 || atLeast fuel a0 PLAYER2 a2 a3 a4 a5 a6 a7 a8 true t) &&
        ((!isE a2 || atLeast fuel a0 a1 PLAYER2 a3 a4 a5 a6 a7 a8 true t) &&
        ((!isE a3 || atLeast fuel a0 a1 a2 PLAYER2 a4 a5 a6 a7 a8 true t) &&
        ((!isE a4 || atLeast fuel a0 a1 a2 a3 PLAYER2 a5 a6 a7 a8 true t) &&
        ((!isE a5 || atLeast fuel a0 a1 a2 a3 a4 PLAYER2 a6 a7 a8 true t) &&
        ((!isE a6 || atLeast fuel a0 a1 a2 a3 a4 a5 PLAYER2 a7 a8 true t) &&
        ((!isE a7 || atLeast fuel a0 a1 a2 a3 a4 a5 a6 PLAYER2 a8 true t) &&
        ((!isE a8 || atLeast fuel a0 a1 a2 a3 a4 a5 a6 a7 PLAYER2 true t)))))))))

/-- Decides `score ≤ t` for the board `a0 .. a8`; `false` when undecided. -/
def atMost :
    Nat → Mark → Mark → Mark → Mark → Mark → Mark → Mark → Mark → Mark → Bool → Int → Bool
  | 0, _, _, _, _, _, _, _, _, _, _, _ => false
  | fuel + 1, a0, a1, a2, a3, a4, a5, a6, a7, a8, isMaximizing, t =>
    if wins9 isX a0 a1 a2 a3 a4 a5 a6 a7 a8 then decide (1 ≤ t)
    else if wins9 isO a0 a1 a2 a3 a4 a5 a6 a7 a8 then decide (-1 ≤ t)
    else if full9 a0 a1 a2 a3 a4 a5 a6 a7 a8 then decide (0 ≤ t)
    else match isMaximizing with
      | true =>
        (!isE a0 || atMost fuel PLAYER1 a1 a2 a3 a4 a5 a6 a7 a8 false t) &&
        ((!isE a1 || atMost fuel a0 PLAYER1 a2 a3 a4 a5 a6 a7 a8 false t) &&
        ((!isE a2 || atMost fuel a0 a1 PLAYER1 a3 a4 a5 a6 a7 a8 false t) &&
        ((!isE a3 || atMost fuel a0 a1 a2 PLAYER1 a4 a5 a6 a7 a8 false t) &&
        ((!isE a4 || atMost fuel a0 a1 a2 a3 PLAYER1 a5 a6 a7 a8 false t) &&
        ((!isE a5 || atMost fuel a0 a1 a2 a3 a4 PLAYER1 a6 a7 a8 false t) &&
        ((!isE a6 || atMost fuel a0 a1 a2 a3 a4 a5 PLAYER1 a7 a8 false t) &&
        ((!isE a7 || atMost fuel a0 a1 a2 a3 a4 a5 a6 PLAYER1 a8 false t) &&
        ((!isE a8 || atMost fuel a0 a1 a2 a3 a4 a5 a6 a7 PLAYER1 false t)))))))))
      | false =>
        (isE a0 && atMost fuel PLAYER2 a1 a2 a3 a4 a5 a6 a7 a8 true t) ||
        ((isE a1 && atMost fuel a0 PLAYER2 a2 a3 a4 a5 a6 a7 a8 true t) ||
        ((isE a2 && atMost fuel a0 a1 PLAYER2 a3 a4 a5 a6 a7 a8 true t) ||
        ((isE a3 && atMost fuel a0 a1 a2 PLAYER2 a4 a5 a6 a7 a8 true t) ||
        ((isE a4 && atMost fuel a0 a1 a2 a3 PLAYER2 a5 a6 a7 a8 true t) ||
        ((isE a5 && atMost fuel a0 a1 a2 a3 a4 PLAYER2 a6 a7 a8 true t) ||
        ((isE a6 && atMost fuel a0 a1 a2 a3 a4 a5 PLAYER2 a7 a8 true t) ||
        ((isE a7 && atMost fuel a0 a1 a2 a3 a4 a5 a6 PLAYER2 a8 true t) ||
        ((isE a8 && atMost fuel a0 a1 a2 a3 a4 a5 a6 a7 PLAYER2 true t)))))))))

/-- Decides `t ≤ cellScore` for an `EMPTY` cell `j` of the board `a0 .. a8`. -/
def cellAtLeast (a0 a1 a2 a3 a4 a5 a6 a7 a8 : Mark) (j : Fin 9) (t : Int) : Bool :=
  match j with
  | 0 => isE a0 && atLeast 10 PLAYER1 a1 a2 a3 a4 a5 a6 a7 a8 false t
  | 1 => isE a1 && atLeast 10 a0 PLAYER1 a2 a3 a4 a5 a6 a7 a8 false t
  | 2 => isE a2 && atLeast 10 a0 a1 PLAYER1 a3 a4 a5 a6 a7 a8 false t
  | 3 => isE a3 && atLeast 10 a0 a1 a2 PLAYER1 a4 a5 a6 a7 a8 false t
  | 4 => isE a4 && atLeast 10 a0 a1 a2 a3 PLAYER1 a5 a6 a7 a8 false t
  | 5 => isE a5 && atLeast 10 a0 a1 a2 a3 a4 PLAYER1 a6 a7 a8 false t
  | 6 => isE a6 && atLeast 10 a0 a1 a2 a3 a4 a5 PLAYER1 a7 a8 false t
  | 7 => isE a7 && atLeast 10 a0 a1 a2 a3 a4 a5 a6 PLAYER1 a8 false t
  | 8 => isE a8 && atLeast 10 a0 a1 a2 a3 a4 a5 a6 a7 PLAYER1 false t

/-- Decides `cellScore ≤ t` for cell `j` of the board `a0 .. a8`, if it is `EMPTY`. -/
def cellAtMost (a0 a1 a2 a3 a4 a5 a6 a7 a8 : Mark) (j : Fin 9) (t : Int) : Bool :=
  match j with
  | 0 => !isE a0 || atMost 10 PLAYER1 a1 a2 a3 a4 a5 a6 a7 a8 false t
  | 1 => !isE a1 || atMost 10 a0 PLAYER1 a2 a3 a4 a5 a6 a7 a8 false t
  | 2 => !isE a2 || atMost 10 a0 a1 PLAYER1 a3 a4 a5 a6 a7 a8 false t
  | 3 => !isE a3 || atMost 10 a0 a1 a2 PLAYER1 a4 a5 a6 a7 a8 false t
  | 4 => !isE a4 || atMost 10 a0 a1 a2 a3 PLAYER1 a5 a6 a7 a8 false t
  | 5 => !isE a5 || atMost 10 a0 a1 a2 a3 a4 PLAYER1 a6 a7 a8 false t
  | 6 => !isE a6 || atMost 10 a0 a1 a2 a3 a4 a5 PLAYER1 a7 a8 false t
  | 7 => !isE a7 || atMost 10 a0 a1 a2 a3 a4 a5 a6 PLAYER1 a8 false t
  | 8 => !isE a8 || atMost 10 a0 a1 a2 a3 a4 a5 a6 a7 PLAYER1 false t

/-- Decides that `bestMove` returns cell `r` on the board `a0 .. a8`: the score
of `r` is at least `v`, earlier cells score less than `v`, later cells at
most `v`. -/
def bestCert (a0 a1 a2 a3 a4 a5 a6 a7 a8 : Mark) (r : Fin 9) (v : Int) : Bool :=
  decide (-1 ≤ v - 1) && decide (v ≤ 1) && cellAtLeast a0 a1 a2 a3 a4 a5 a6 a7 a8 r v &&
  cells.all (fun j =>
    if j < r then cellAtMost a0 a1 a2 a3 a4 a5 a6 a7 a8 j (v - 1)
    else if r < j then cellAtMost a0 a1 a2 a3 a4 a5 a6 a7 a8 j v
    else true)

/-! ## Positions used as examples -/

/-- The board `X _ _ / _ _ _ / _ _ _` with `PLAYER2` to move. -/
def afterFirstMove : TicTacToe :=
  position
    (mkBoard PLAYER1 EMPTY EMPTY
             EMPTY EMPTY EMPTY
             EMPTY EMPTY EMPTY)
    PLAYER2

/-- The board `X X _ / O O _ / _ _ _` with `PLAYER1` to move. -/
def beforeTopRow : TicTacToe :=
  position
    (mkBoard PLAYER1 PLAYER1 EMPTY
             PLAYER2 PLAYER2 EMPTY
             EMPTY EMPTY EMPTY)
    PLAYER1

/-- The board `X _ _ / _ O _ / _ _ X` with `PLAYER1` to move. -/
def cornersAndCentre : TicTacToe :=
  position
    (mkBoard PLAYER1 EMPTY EMPTY
             EMPTY PLAYER2 EMPTY
             EMPTY EMPTY PLAYER1)
    PLAYER1

/-- The board `X X X / O O _ / _ _ _`, on which `PLAYER1` owns the top row, with
`PLAYER2` to move. -/
def topRowOwned : TicTacToe :=
  position
    (mkBoard PLAYER1 PLAYER1 PLAYER1
             PLAYER2 PLAYER2 EMPTY
             EMPTY EMPTY EMPTY)
    PLAYER2

/-- The board `X X _ / O O _ / _ _ _` with `PLAYER2` to move. -/
def secondToBlock : TicTacToe :=
  position
    (mkBoard PLAYER1 PLAYER1 EMPTY
             PLAYER2 PLAYER2 EMPTY
             EMPTY EMPTY EMPTY)
    PLAYER2

/-! ## The reference value of a position

The value of a position by backward induction, as the specification words it
(spec.md, section 4.2), to be compared with what `minimax` computes. -/

/-- The largest of the values `f i` for the cells `i` of a list (`0` for the
empty list, over which no maximum is taken). -/
def maxOver (f : Fin 9 → Int) : List (Fin 9) → Int
  | [] => 0
  | [i] => f i
  | i :: j :: rest => max (f i) (maxOver f (j :: rest))

/-- The smallest of the values `f i` for the cells `i` of a list (`0` for the
empty list, over which no minimum is taken). -/
def minOver (f : Fin 9 → Int) : List (Fin 9) → Int
  | [] => 0
  | [i] => f i
  | i :: j :: rest => min (f i) (minOver f (j :: rest))

/-- The `EMPTY` cells of a board, in ascending order. -/
def emptyCells (board : Board) : List (Fin 9) :=
  cells.filter (fun i => board.get i == EMPTY)

/-- The reference value of a board with at most `n` cells `EMPTY`: `1` if First
owns a line, else `-1` if Second owns a line, else `0` if no cell is `EMPTY`;
otherwise the maximum (First to move) or the minimum (Second to move) over the
`EMPTY` cells of the value of the board with the mover's mark placed there
and the other side to move. -/
def valueAt : Nat → Board → Bool → Int
  | 0, board, _ =>
    if ownsLine board PLAYER1 then 1
    else if ownsLine board PLAYER2 then -1
    else 0
  | n + 1, board, firstToMove =>
    if ownsLine board PLAYER1 then 1
    else if ownsLine board PLAYER2 then -1
    else if ∀ i, board.get i ≠ EMPTY then 0
    else if firstToMove then
      maxOver (fun i => valueAt n (board.set i PLAYER1) false) (emptyCells board)
    else
      minOver (fun i => valueAt n (board.set i PLAYER2) true) (emptyCells board)

/-- The reference value of a board: the recursion runs over the number of
`EMPTY` cells, which every placed mark lowers by one. -/
def value (board : Board) (firstToMove : Bool) : Int :=
  valueAt (emptyCount board) board firstToMove

/-- The full board `X X X / O O X / O X O`, on which `PLAYER1` owns the top row. -/
def fullWithTopRow : Board :=
  mkBoard PLAYER1 PLAYER1 PLAYER1
          PLAYER2 PLAYER2 PLAYER1
          PLAYER2 PLAYER1 PLAYER2

/-- The board `X O X / O X O / O X _` with `PLAYER1` to move: cell 8 is the last
`EMPTY` cell and completes the diagonal 0, 4, 8. -/
def lastCellWins : TicTacToe :=
  position
    (mkBoard PLAYER1 PLAYER2 PLAYER1
             PLAYER2 PLAYER1 PLAYER2
             PLAYER2 PLAYER1 EMPTY)
    PLAYER1

/-! ## Games against the computer -/

/-- The objects reached in games that start from the empty board, in which every
move of `PLAYER1` is made by `makeAIMove` and every move of `PLAYER2` is any
move on an `EMPTY` cell; after a game is over the next one starts. -/
inductive AIPlay : TicTacToe → Prop
  | start (g : TicTacToe) : Dialog.wins PLAYER2 ∉ g.dialogs → AIPlay (resetGame g)
  | first (g g1 : TicTacToe) : AIPlay g → g.currentPlayer = PLAYER1 →
      makeAIMove g = .ok g1 → AIPlay g1
  | second (g g1 : TicTacToe) (i : Fin 9) : AIPlay g → g.currentPlayer = PLAYER2 →
      g.board.get i = EMPTY → makeMove g (i.val : Int) = .ok g1 → AIPlay g1

/-- What holds of every object in a game against the computer: no side owns a
line, no win of `PLAYER2` has been reported, and the reference value of the
position is not below `0` for the side to move. -/
def searchInvariant (g : TicTacToe) : Prop :=
  checkWin g.board PLAYER1 = false ∧ checkWin g.board PLAYER2 = false ∧
  Dialog.wins PLAYER2 ∉ g.dialogs ∧
  ((g.currentPlayer = PLAYER1 ∧ 0 ≤ value g.board true) ∨
   (g.currentPlayer = PLAYER2 ∧ 0 ≤ value g.board false))

/-- The number of cells of a board that hold the mark `p`. -/
def markCount (board : Board) (p : Mark) : Nat :=
  (Finset.univ.filter fun i : Fin 9 => board.get i = p).card

/-- The board `_ _ _ / _ X _ / _ _ _` with `PLAYER2` to move. -/
def afterCentre : TicTacToe :=
  position
    (mkBoard EMPTY EMPTY EMPTY
             EMPTY PLAYER1 EMPTY
             EMPTY EMPTY EMPTY)
    PLAYER2

/-! ## Basic facts about boards -/

theorem mem_cells (i : Fin 9) : i ∈ cells := by
  fin_cases i <;> simp [cells]

theorem set_set_empty (board : Board) (i : Fin 9) (p : Mark) (h : board.get i = EMPTY) :
    (board.set i p).set i EMPTY = board := by
  apply Mathlib.Vector.ext
  intro j
  by_cases hj : i = j
  · subst hj
    rw [Mathlib.Vector.get_set_same, h]
  · rw [Mathlib.Vector.get_set_of_ne hj, Mathlib.Vector.get_set_of_ne hj]

theorem emptyCount_le (board : Board) : emptyCount board ≤ 9 := by
  unfold emptyCount
  calc (Finset.univ.filter fun i : Fin 9 => board.get i = EMPTY).card
      ≤ (Finset.univ : Finset (Fin 9)).card := Finset.card_filter_le _ _
    _ = 9 := by simp

theorem emptyCount_set_lt (board : Board) (i : Fin 9) (p : Mark) (h : board.get i = EMPTY)
    (hp : p ≠ EMPTY) : emptyCount (board.set i p) < emptyCount board := by
  unfold emptyCount
  apply Finset.card_lt_card
  rw [Finset.ssubset_iff_of_subset]
  · refine ⟨i, by simp [h], ?_⟩
    simp [Mathlib.Vector.get_set_same, hp]
  · intro j hj
    simp only [Finset.mem_filter, Finset.mem_univ, true_and] at hj ⊢
    by_cases hij : i = j
    · subst hij
      exact h
    · rwa [Mathlib.Vector.get_set_of_ne hij] at hj

theorem toList_eq_map_get (board : Board) : board.toList = cells.map board.get := by
  obtain ⟨l, hl⟩ := board
  match l, hl with
  | [a0, a1, a2, a3, a4, a5, a6, a7, a8], _ => rfl

theorem checkTie_eq_true_iff (board : Board) :
    checkTie board = true ↔ ∀ i, board.get i ≠ EMPTY := by
  unfold checkTie
  rw [toList_eq_map_get]
  simp only [List.all_eq_true, List.mem_map, bne_iff_ne, ne_eq, forall_exists_index, and_imp,
    forall_apply_eq_imp_iff₂]
  constructor
  · intro h i
    exact h i (mem_cells i)
  · intro h i _
    exact h i

theorem exists_empty_of_not_tie (board : Board) (h : checkTie board = false) :
    ∃ i, board.get i = EMPTY := by
  by_contra hne
  push_neg at hne
  have := (checkTie_eq_true_iff board).2 hne
  rw [h] at this
  exact Bool.noConfusion this

/-! ## `minimax` returns the score and the unchanged vector -/

theorem forCells_minimax (fuel : Nat) (board : Board) (isMaximizing : Bool)
    (ih : ∀ i, board.get i = EMPTY →
      minimaxFuel fuel (board.set i (if isMaximizing then PLAYER1 else PLAYER2)) (!isMaximizing)
        = .ok (scoreFuel fuel (board.set i (if isMaximizing then PLAYER1 else PLAYER2))
            (!isMaximizing), board.set i (if isMaximizing then PLAYER1 else PLAYER2)))
    (l : List (Fin 9)) (bestScore : Int) :
    forCells (fun i (st : Int × Board) =>
        if st.2.get i = EMPTY then
          match minimaxFuel fuel (st.2.set i (if isMaximizing then PLAYER1 else PLAYER2))
              (!isMaximizing) with
          | .error e => .error e
          | .ok (score, board1) =>
            .ok (if isMaximizing then max score st.1 else min score st.1, board1.set i EMPTY)
        else .ok st) l (bestScore, board)
      = .ok (foldBest isMaximizing (fun i => board.get i == EMPTY)
          (fun i => scoreFuel fuel (board.set i (if isMaximizing then PLAYER1 else PLAYER2))
            (!isMaximizing)) l bestScore, board) := by
  induction l generalizing bestScore with
  | nil => rfl
  | cons i rest ihl =>
    by_cases hi : board.get i = EMPTY
    · simp only [forCells, foldBest, hi, if_true, ih i hi, beq_self_eq_true]
      rw [set_set_empty board i _ hi]
      exact ihl _
    · have hb : (board.get i == EMPTY) = false := by simpa using hi
      simp only [forCells, foldBest, hi, if_false, hb]
      exact ihl _

theorem minimaxFuel_eq (fuel : Nat) (board : Board) (isMaximizing : Bool)
    (h : emptyCount board < fuel) :
    minimaxFuel fuel board isMaximizing = .ok (scoreFuel fuel board isMaximizing, board) := by
  induction fuel generalizing board isMaximizing with
  | zero => omega
  | succ fuel ih =>
    unfold minimaxFuel scoreFuel
    by_cases h1 : checkWin board PLAYER1 = true
    · simp [h1]
    by_cases h2 : checkWin board PLAYER2 = true
    · simp [h1, h2]
    by_cases h3 : checkTie board = true
    · simp [h1, h2, h3]
    simp only [h1, h2, h3, if_false]
    apply forCells_minimax
    intro i hi
    apply ih
    have hp : (if isMaximizing then PLAYER1 else PLAYER2) ≠ EMPTY := by
      cases isMaximizing <;> simp
    have := emptyCount_set_lt board i _ hi hp
    omega

theorem minimax_eq (board : Board) (isMaximizing : Bool) :
    minimax board isMaximizing = .ok (scoreFuel 10 board isMaximizing, board) :=
  minimaxFuel_eq 10 board isMaximizing (by have := emptyCount_le board; omega)

/-! ## The running best score of the loops -/

theorem le_foldBest_max (empty : Fin 9 → Bool) (child : Fin 9 → Int) (l : List (Fin 9))
    (init x : Int) :
    x ≤ foldBest true empty child l init ↔
      x ≤ init ∨ ∃ i ∈ l, empty i = true ∧ x ≤ child i := by
  induction l generalizing init with
  | nil => simp [foldBest]
  | cons i rest ih =>
    simp only [foldBest, if_true, ih, List.mem_cons, exists_eq_or_imp]
    by_cases hi : empty i = true
    · simp only [hi, if_true, le_max_iff, true_and]
      tauto
    · simp only [hi, if_false, false_and, false_or, Bool.false_eq_true]

theorem foldBest_max_le (empty : Fin 9 → Bool) (child : Fin 9 → Int) (l : List (Fin 9))
    (init x : Int) :
    foldBest true empty child l init ≤ x ↔
      init ≤ x ∧ ∀ i ∈ l, empty i = true → child i ≤ x := by
  induction l generalizing init with
  | nil => simp [foldBest]
  | cons i rest ih =>
    simp only [foldBest, if_true, ih, List.mem_cons, forall_eq_or_imp]
    by_cases hi : empty i = true
    · simp only [hi, if_true, max_le_iff, true_implies]
      tauto
    · simp only [hi, if_false, false_implies, true_and, Bool.false_eq_true]

theorem foldBest_min_le (empty : Fin 9 → Bool) (child : Fin 9 → Int) (l : List (Fin 9))
    (init x : Int) :
    foldBest false empty child l init ≤ x ↔
      init ≤ x ∨ ∃ i ∈ l, empty i = true ∧ child i ≤ x := by
  induction l generalizing init with
  | nil => simp [foldBest]
  | cons i rest ih =>
    simp only [foldBest, ih, List.mem_cons, exists_eq_or_imp, Bool.false_eq_true, if_false]
    by_cases hi : empty i = true
    · simp only [hi, if_true, min_le_iff, true_and]
      tauto
    · simp only [hi, if_false, false_and, false_or, Bool.false_eq_true]

theorem le_foldBest_min (empty : Fin 9 → Bool) (child : Fin 9 → Int) (l : List (Fin 9))
    (init x : Int) :
    x ≤ foldBest false empty child l init ↔
      x ≤ init ∧ ∀ i ∈ l, empty i = true → x ≤ child i := by
  induction l generalizing init with
  | nil => simp [foldBest]
  | cons i rest ih =>
    simp only [foldBest, ih, List.mem_cons, forall_eq_or_imp, Bool.false_eq_true, if_false]
    by_cases hi : empty i = true
    · simp only [hi, if_true, le_min_iff, true_implies]
      tauto
    · simp only [hi, if_false, false_implies, true_and, Bool.false_eq_true]

/-- Every score is `-1`, `0` or `1`: the sentinels never leave `minimax`. -/
theorem scoreFuel_range (fuel : Nat) (board : Board) (isMaximizing : Bool)
    (h : emptyCount board < fuel) :
    -1 ≤ scoreFuel fuel board isMaximizing ∧ scoreFuel fuel board isMaximizing ≤ 1 := by
  induction fuel generalizing board isMaximizing with
  | zero => omega
  | succ fuel ih =>
    unfold scoreFuel
    by_cases h1 : checkWin board PLAYER1 = true
    · simp [h1]
    by_cases h2 : checkWin board PLAYER2 = true
    · simp [h1, h2]
    by_cases h3 : checkTie board = true
    · simp [h1, h2, h3]
    simp only [h1, h2, h3, if_false, Bool.false_eq_true]
    obtain ⟨i0, hi0⟩ := exists_empty_of_not_tie board (by simpa using h3)
    have hchild : ∀ i, board.get i = EMPTY → ∀ p, p ≠ EMPTY → ∀ m,
        -1 ≤ scoreFuel fuel (board.set i p) m ∧ scoreFuel fuel (board.set i p) m ≤ 1 := by
      intro i hi p hp m
      apply ih
      have := emptyCount_set_lt board i p hi hp
      omega
    cases isMaximizing with
    | true =>
      simp only [if_true]
      constructor
      · rw [le_foldBest_max]
        exact Or.inr ⟨i0, mem_cells i0, by simp [hi0], (hchild i0 hi0 PLAYER1 (by simp) _).1⟩
      · rw [foldBest_max_le]
        refine ⟨by simp [INT_MIN], ?_⟩
        intro i _ hi
        exact (hchild i (by simpa using hi) PLAYER1 (by simp) _).2
    | false =>
      simp only [if_false, Bool.false_eq_true]
      constructor
      · rw [le_foldBest_min]
        refine ⟨by simp [INT_MAX], ?_⟩
        intro i _ hi
        exact (hchild i (by simpa using hi) PLAYER2 (by simp) _).1
      · rw [foldBest_min_le]
        exact Or.inr ⟨i0, mem_cells i0, by simp [hi0], (hchild i0 hi0 PLAYER2 (by simp) _).2⟩

theorem cellScore_range (board : Board) (i : Fin 9) :
    -1 ≤ cellScore board i ∧ cellScore board i ≤ 1 :=
  scoreFuel_range 10 _ _ (by have := emptyCount_le (board.set i PLAYER1); omega)

/-! ## `bestMove` returns the first cell of maximal score -/

theorem forCells_bestMove (board : Board) (l : List (Fin 9)) (st : Int × Int) :
    forCells bestMoveBody l (st.1, st.2, board)
      = .ok ((pickBest board l st).1, (pickBest board l st).2, board) := by
  induction l generalizing st with
  | nil => rfl
  | cons i rest ih =>
    by_cases hi : board.get i = EMPTY
    · by_cases hs : cellScore board i > st.2
      · have hs2 : scoreFuel 10 (board.set i PLAYER1) false > st.2 := hs
        simp only [forCells, bestMoveBody, pickBest, hi, if_true, minimax_eq, hs, hs2]
        rw [set_set_empty board i _ hi]
        exact ih (_, _)
      · have hs2 : ¬ scoreFuel 10 (board.set i PLAYER1) false > st.2 := hs
        simp only [forCells, bestMoveBody, pickBest, hi, if_true, minimax_eq, hs, hs2, if_false]
        rw [set_set_empty board i _ hi]
        exact ih st
    · simp only [forCells, bestMoveBody, pickBest, hi, if_false]
      exact ih st

theorem bestMove_eq (g : TicTacToe) :
    bestMove g = .ok ((pickBest g.board cells (-1, INT_MIN)).1, g) := by
  unfold bestMove
  rw [forCells_bestMove g.board cells (-1, INT_MIN)]

theorem pickBest_spec (board : Board) (l : List (Fin 9)) (hl : l.Pairwise (· < ·))
    (st : Int × Int) :
    st.2 ≤ (pickBest board l st).2 ∧
    (∀ j ∈ l, board.get j = EMPTY → cellScore board j ≤ (pickBest board l st).2) ∧
    (pickBest board l st = st ∨
      ∃ k ∈ l, pickBest board l st = ((k.val : Int), cellScore board k) ∧
        board.get k = EMPTY ∧ st.2 < cellScore board k ∧
        ∀ j ∈ l, j < k → board.get j = EMPTY → cellScore board j < cellScore board k) := by
  induction l generalizing st with
  | nil => simp [pickBest]
  | cons i rest ih =>
    rw [List.pairwise_cons] at hl
    obtain ⟨hi_lt, hrest⟩ := hl
    simp only [pickBest]
    generalize hst1 : (if board.get i = EMPTY then
        (if cellScore board i > st.2 then ((i.val : Int), cellScore board i) else st)
       else st) = st1
    have hstep : st.2 ≤ st1.2 ∧ (board.get i = EMPTY → cellScore board i ≤ st1.2) ∧
        (st1 = st ∨ (st1 = ((i.val : Int), cellScore board i) ∧ board.get i = EMPTY ∧
          st.2 < cellScore board i)) := by
      subst hst1
      by_cases hi : board.get i = EMPTY
      · by_cases hs : cellScore board i > st.2
        · rw [if_pos hi, if_pos hs]
          exact ⟨le_of_lt hs, fun _ => le_refl _, Or.inr ⟨rfl, hi, hs⟩⟩
        · rw [if_pos hi, if_neg hs]
          exact ⟨le_refl _, fun _ => not_lt.1 hs, Or.inl rfl⟩
      · rw [if_neg hi]
        exact ⟨le_refl _, fun h => absurd h hi, Or.inl rfl⟩
    obtain ⟨h1, h2, h3⟩ := hstep
    obtain ⟨ih1, ih2, ih3⟩ := ih hrest st1
    refine ⟨le_trans h1 ih1, ?_, ?_⟩
    · intro j hj hje
      rcases List.mem_cons.1 hj with rfl | hj
      · exact le_trans (h2 hje) ih1
      · exact ih2 j hj hje
    · rcases ih3 with heq | ⟨k, hk, hkeq, hke, hklt, hfirst⟩
      · rcases h3 with h3 | ⟨h3, hie, hilt⟩
        · left
          rw [heq, h3]
        · right
          refine ⟨i, List.mem_cons_self _ _, by rw [heq, h3], hie, hilt, ?_⟩
          intro j hj hji
          rcases List.mem_cons.1 hj with rfl | hj
          · exact absurd hji (lt_irrefl _)
          · exact absurd hji (not_lt.2 (le_of_lt (hi_lt j hj)))
      · right
        refine ⟨k, List.mem_cons_of_mem _ hk, hkeq, hke, lt_of_le_of_lt h1 hklt, ?_⟩
        intro j hj hjk hje
        rcases List.mem_cons.1 hj with rfl | hj
        · exact lt_of_le_of_lt (h2 hje) hklt
        · exact hfirst j hj hjk hje

theorem cells_sorted : cells.Pairwise (· < ·) := by
  unfold cells
  decide

/-- With an `EMPTY` cell on the board, `bestMove` returns the first `EMPTY` cell
whose score is maximal, and leaves the object as it was. -/
theorem bestMove_spec (g : TicTacToe) (h : ∃ i, g.board.get i = EMPTY) :
    ∃ r : Fin 9, bestMove g = .ok ((r.val : Int), g) ∧ g.board.get r = EMPTY ∧
      (∀ j, g.board.get j = EMPTY → cellScore g.board j ≤ cellScore g.board r) ∧
      (∀ j, j < r → g.board.get j = EMPTY → cellScore g.board j < cellScore g.board r) := by
  obtain ⟨i0, hi0⟩ := h
  obtain ⟨_, h2, h3⟩ := pickBest_spec g.board cells cells_sorted (-1, INT_MIN)
  rcases h3 with heq | ⟨k, _, hkeq, hke, _, hfirst⟩
  · exfalso
    have hle := h2 i0 (mem_cells i0) hi0
    rw [heq] at hle
    have := (cellScore_range g.board i0).1
    simp only [INT_MIN] at hle
    omega
  · refine ⟨k, ?_, hke, ?_, ?_⟩
    · rw [bestMove_eq, hkeq]
    · intro j hj
      have := h2 j (mem_cells j) hj
      rwa [hkeq] at this
    · intro j hjk hj
      exact hfirst j (mem_cells j) hjk hj

/-- Without an `EMPTY` cell, `bestMove` returns `-1`. -/
theorem bestMove_full (g : TicTacToe) (h : ∀ i, g.board.get i ≠ EMPTY) :
    bestMove g = .ok (-1, g) := by
  rw [bestMove_eq]
  obtain ⟨_, _, h3⟩ := pickBest_spec g.board cells cells_sorted (-1, INT_MIN)
  rcases h3 with heq | ⟨k, _, _, hke, _⟩
  · rw [heq]
  · exact absurd hke (h k)

/-- A cell that meets the bounds of the first maximal cell is the cell `bestMove` returns. -/
theorem bestMove_eq_of_bounds (g : TicTacToe) (r : Fin 9) (v : Int)
    (hr : g.board.get r = EMPTY) (hge : v ≤ cellScore g.board r)
    (hle : ∀ j, r < j → g.board.get j = EMPTY → cellScore g.board j ≤ v)
    (hlt : ∀ j, j < r → g.board.get j = EMPTY → cellScore g.board j < v) :
    bestMove g = .ok ((r.val : Int), g) := by
  obtain ⟨k, hk, hke, hmax, hfirst⟩ := bestMove_spec g ⟨r, hr⟩
  have hkr : k = r := by
    rcases lt_trichotomy k r with hlt1 | heq | hgt
    · have := hlt k hlt1 hke
      have := hmax r hr
      omega
    · exact heq
    · have := hfirst r hgt hr
      have := hle k hgt hke
      omega
  rw [hk, hkr]

/-! ## Soundness of the bound checker -/

theorem isE_eq (a : Mark) : isE a = (a == EMPTY) := by
  cases a <;> rfl

theorem isX_eq (a : Mark) : isX a = (a == PLAYER1) := by
  cases a <;> rfl

theorem isO_eq (a : Mark) : isO a = (a == PLAYER2) := by
  cases a <;> rfl

theorem checkWin_mkBoard_PLAYER1 (a0 a1 a2 a3 a4 a5 a6 a7 a8 : Mark) :
    checkWin (mkBoard a0 a1 a2 a3 a4 a5 a6 a7 a8) PLAYER1
      = wins9 isX a0 a1 a2 a3 a4 a5 a6 a7 a8 := by
  simp only [wins9, line3, isX_eq]
  rfl

theorem checkWin_mkBoard_PLAYER2 (a0 a1 a2 a3 a4 a5 a6 a7 a8 : Mark) :
    checkWin (mkBoard a0 a1 a2 a3 a4 a5 a6 a7 a8) PLAYER2
      = wins9 isO a0 a1 a2 a3 a4 a5 a6 a7 a8 := by
  simp only [wins9, line3, isO_eq]
  rfl

theorem checkTie_mkBoard (a0 a1 a2 a3 a4 a5 a6 a7 a8 : Mark) :
    checkTie (mkBoard a0 a1 a2 a3 a4 a5 a6 a7 a8) = full9 a0 a1 a2 a3 a4 a5 a6 a7 a8 := by
  simp only [full9, isE_eq]
  simp [checkTie, mkBoard, Mathlib.Vector.toList, bne]

theorem mkBoard_get (board : Board) :
    board = mkBoard (board.get 0) (board.get 1) (board.get 2) (board.get 3) (board.get 4)
      (board.get 5) (board.get 6) (board.get 7) (board.get 8) := by
  obtain ⟨l, hl⟩ := board
  match l, hl with
  | [a0, a1, a2, a3, a4, a5, a6, a7, a8], _ => rfl

theorem atLeast_sound (fuel : Nat) (a0 a1 a2 a3 a4 a5 a6 a7 a8 : Mark) (isMaximizing : Bool)
    (t : Int) (ht : t ≤ 1)
    (h : atLeast fuel a0 a1 a2 a3 a4 a5 a6 a7 a8 isMaximizing t = true) :
    t ≤ scoreFuel fuel (mkBoard a0 a1 a2 a3 a4 a5 a6 a7 a8) isMaximizing := by
  induction fuel generalizing a0 a1 a2 a3 a4 a5 a6 a7 a8 isMaximizing with
  | zero => simp [atLeast] at h
  | succ fuel ih =>
    unfold atLeast at h
    unfold scoreFuel
    rw [checkWin_mkBoard_PLAYER1, checkWin_mkBoard_PLAYER2, checkTie_mkBoard]
    cases h1 : wins9 isX a0 a1 a2 a3 a4 a5 a6 a7 a8
    case true => simpa [h1] using h
    cases h2 : wins9 isO a0 a1 a2 a3 a4 a5 a6 a7 a8
    case true => simpa [h1, h2] using h
    cases h3 : full9 a0 a1 a2 a3 a4 a5 a6 a7 a8
    case true => simpa [h1, h2, h3] using h
    simp only [h1, h2, h3, Bool.false_eq_true, if_false] at h ⊢
    cases isMaximizing with
    | true =>
      simp only [if_true, Bool.or_eq_true, Bool.and_eq_true] at h ⊢
      rw [le_foldBest_max]
      rcases h with ⟨he, hc⟩ | ⟨he, hc⟩ | ⟨he, hc⟩ | ⟨he, hc⟩ | ⟨he, hc⟩ | ⟨he, hc⟩ |
        ⟨he, hc⟩ | ⟨he, hc⟩ | ⟨he, hc⟩
      · exact Or.inr ⟨0, mem_cells _, by rw [isE_eq] at he; exact he,
          ih _ _ _ _ _ _ _ _ _ _ hc⟩
      · exact Or.inr ⟨1, mem_cells _, by rw [isE_eq] at he; exact he,
          ih _ _ _ _ _ _ _ _ _ _ hc⟩
      · exact Or.inr ⟨2, mem_cells _, by rw [isE_eq] at he; exact he,
          ih _ _ _ _ _ _ _ _ _ _ hc⟩
      · exact Or.inr ⟨3, mem_cells _, by rw [isE_eq] at he; exact he,
          ih _ _ _ _ _ _ _ _ _ _ hc⟩
      · exact Or.inr ⟨4, mem_cells _, by rw [isE_eq] at he; exact he,
          ih _ _ _ _ _ _ _ _ _ _ hc⟩
      · exact Or.inr ⟨5, mem_cells _, by rw [isE_eq] at he; exact he,
          ih _ _ _ _ _ _ _ _ _ _ hc⟩
      · exact Or.inr ⟨6, mem_cells _, by rw [isE_eq] at he; exact he,
          ih _ _ _ _ _ _ _ _ _ _ hc⟩
      · exact Or.inr ⟨7, mem_cells _, by rw [isE_eq] at he; exact he,
          ih _ _ _ _ _ _ _ _ _ _ hc⟩
      · exact Or.inr ⟨8, mem_cells _, by rw [isE_eq] at he; exact he,
          ih _ _ _ _ _ _ _ _ _ _ hc⟩
    | false =>
      simp only [Bool.false_eq_true, if_false, Bool.or_eq_true, Bool.and_eq_true,
        Bool.not_eq_true'] at h ⊢
      rw [le_foldBest_min]
      refine ⟨by simp only [INT_MAX]; omega, ?_⟩
      obtain ⟨h0, h1, h2, h3, h4, h5, h6, h7, h8⟩ := h
      intro i _ hi
      fin_cases i
      · exact ih _ _ _ _ _ _ _ _ _ _ (h0.resolve_left (by rw [isE_eq]; simpa using hi))
      · exact ih _ _ _ _ _ _ _ _ _ _ (h1.resolve_left (by rw [isE_eq]; simpa using hi))
      · exact ih _ _ _ _ _ _ _ _ _ _ (h2.resolve_left (by rw [isE_eq]; simpa using hi))
      · exact ih _ _ _ _ _ _ _ _ _ _ (h3.resolve_left (by rw [isE_eq]; simpa using hi))
      · exact ih _ _ _ _ _ _ _ _ _ _ (h4.resolve_left (by rw [isE_eq]; simpa using hi))
      · exact ih _ _ _ _ _ _ _ _ _ _ (h5.resolve_left (by rw [isE_eq]; simpa using hi))
      · exact ih _ _ _ _ _ _ _ _ _ _ (h6.resolve_left (by rw [isE_eq]; simpa using hi))
      · exact ih _ _ _ _ _ _ _ _ _ _ (h7.resolve_left (by rw [isE_eq]; simpa using hi))
      · exact ih _ _ _ _ _ _ _ _ _ _ (h8.resolve_left (by rw [isE_eq]; simpa using hi))

theorem atMost_sound (fuel : Nat) (a0 a1 a2 a3 a4 a5 a6 a7 a8 : Mark) (isMaximizing : Bool)
    (t : Int) (ht : -1 ≤ t)
    (h : atMost fuel a0 a1 a2 a3 a4 a5 a6 a7 a8 isMaximizing t = true) :
    scoreFuel fuel (mkBoard a0 a1 a2 a3 a4 a5 a6 a7 a8) isMaximizing ≤ t := by
  induction fuel generalizing a0 a1 a2 a3 a4 a5 a6 a7 a8 isMaximizing with
  | zero => simp [atMost] at h
  | succ fuel ih =>
    unfold atMost at h
    unfold scoreFuel
    rw [checkWin_mkBoard_PLAYER1, checkWin_mkBoard_PLAYER2, checkTie_mkBoard]
    cases h1 : wins9 isX a0 a1 a2 a3 a4 a5 a6 a7 a8
    case true => simpa [h1] using h
    cases h2 : wins9 isO a0 a1 a2 a3 a4 a5 a6 a7 a8
    case true => simpa [h1, h2] using h
    cases h3 : full9 a0 a1 a2 a3 a4 a5 a6 a7 a8
    case true => simpa [h1, h2, h3] using h
    simp only [h1, h2, h3, Bool.false_eq_true, if_false] at h ⊢
    cases isMaximizing with
    | true =>
      simp only [if_true, Bool.or_eq_true, Bool.and_eq_true, Bool.not_eq_true'] at h ⊢
      rw [foldBest_max_le]
      refine ⟨by simp only [INT_MIN]; omega, ?_⟩
      obtain ⟨h0, h1, h2, h3, h4, h5, h6, h7, h8⟩ := h
      intro i _ hi
      fin_cases i
      · exact ih _ _ _ _ _ _ _ _ _ _ (h0.resolve_left (by rw [isE_eq]; simpa using hi))
      · exact ih _ _ _ _ _ _ _ _ _ _ (h1.resolve_left (by rw [isE_eq]; simpa using hi))
      · exact ih _ _ _ _ _ _ _ _ _ _ (h2.resolve_left (by rw [isE_eq]; simpa using hi))
      · exact ih _ _ _ _ _ _ _ _ _ _ (h3.resolve_left (by rw [isE_eq]; simpa using hi))
      · exact ih _ _ _ _ _ _ _ _ _ _ (h4.resolve_left (by rw [isE_eq]; simpa using hi))
      · exact ih _ _ _ _ _ _ _ _ _ _ (h5.resolve_left (by rw [isE_eq]; simpa using hi))
      · exact ih _ _ _ _ _ _ _ _ _ _ (h6.resolve_left (by rw [isE_eq]; simpa using hi))
      · exact ih _ _ _ _ _ _ _ _ _ _ (h7.resolve_left (by rw [isE_eq]; simpa using hi))
      · exact ih _ _ _ _ _ _ _ _ _ _ (h8.resolve_left (by rw [isE_eq]; simpa using hi))
    | false =>
      simp only [Bool.false_eq_true, if_false, Bool.or_eq_true, Bool.and_eq_true] at h ⊢
      rw [foldBest_min_le]
      rcases h with ⟨he, hc⟩ | ⟨he, hc⟩ | ⟨he, hc⟩ | ⟨he, hc⟩ | ⟨he, hc⟩ | ⟨he, hc⟩ |
        ⟨he, hc⟩ | ⟨he, hc⟩ | ⟨he, hc⟩
      · exact Or.inr ⟨0, mem_cells _, by rw [isE_eq] at he; exact he,
          ih _ _ _ _ _ _ _ _ _ _ hc⟩
      · exact Or.inr ⟨1, mem_cells _, by rw [isE_eq] at he; exact he,
          ih _ _ _ _ _ _ _ _ _ _ hc⟩
      · exact Or.inr ⟨2, mem_cells _, by rw [isE_eq] at he; exact he,
          ih _ _ _ _ _ _ _ _ _ _ hc⟩
      · exact Or.inr ⟨3, mem_cells _, by rw [isE_eq] at he; exact he,
          ih _ _ _ _ _ _ _ _ _ _ hc⟩
      · exact Or.inr ⟨4, mem_cells _, by rw [isE_eq] at he; exact he,
          ih _ _ _ _ _ _ _ _ _ _ hc⟩
      · exact Or.inr ⟨5, mem_cells _, by rw [isE_eq] at he; exact he,
          ih _ _ _ _ _ _ _ _ _ _ hc⟩
      · exact Or.inr ⟨6, mem_cells _, by rw [isE_eq] at he; exact he,
          ih _ _ _ _ _ _ _ _ _ _ hc⟩
      · exact Or.inr ⟨7, mem_cells _, by rw [isE_eq] at he; exact he,
          ih _ _ _ _ _ _ _ _ _ _ hc⟩
      · exact Or.inr ⟨8, mem_cells _, by rw [isE_eq] at he; exact he,
          ih _ _ _ _ _ _ _ _ _ _ hc⟩

theorem cellAtMost_sound (a0 a1 a2 a3 a4 a5 a6 a7 a8 : Mark) (j : Fin 9) (t : Int)
    (ht : -1 ≤ t) (h : cellAtMost a0 a1 a2 a3 a4 a5 a6 a7 a8 j t = true)
    (hj : (mkBoard a0 a1 a2 a3 a4 a5 a6 a7 a8).get j = EMPTY) :
    cellScore (mkBoard a0 a1 a2 a3 a4 a5 a6 a7 a8) j ≤ t := by
  fin_cases j
  · have hc : (!isE a0 || atMost 10 PLAYER1 a1 a2 a3 a4 a5 a6 a7 a8 false t) = true := h
    simp only [Bool.or_eq_true, Bool.not_eq_true'] at hc
    exact atMost_sound 10 _ _ _ _ _ _ _ _ _ false t ht
      (hc.resolve_left (by rw [isE_eq]; simpa using hj))
  · have hc : (!isE a1 || atMost 10 a0 PLAYER1 a2 a3 a4 a5 a6 a7 a8 false t) = true := h
    simp only [Bool.or_eq_true, Bool.not_eq_true'] at hc
    exact atMost_sound 10 _ _ _ _ _ _ _ _ _ false t ht
      (hc.resolve_left (by rw [isE_eq]; simpa using hj))
  · have hc : (!isE a2 || atMost 10 a0 a1 PLAYER1 a3 a4 a5 a6 a7 a8 false t) = true := h
    simp only [Bool.or_eq_true, Bool.not_eq_true'] at hc
    exact atMost_sound 10 _ _ _ _ _ _ _ _ _ false t ht
      (hc.resolve_left (by rw [isE_eq]; simpa using hj))
  · have hc : (!isE a3 || atMost 10 a0 a1 a2 PLAYER1 a4 a5 a6 a7 a8 false t) = true := h
    simp only [Bool.or_eq_true, Bool.not_eq_true'] at hc
    exact atMost_sound 10 _ _ _ _ _ _ _ _ _ false t ht
      (hc.resolve_left (by rw [isE_eq]; simpa using hj))
  · have hc : (!isE a4 || atMost 10 a0 a1 a2 a3 PLAYER1 a5 a6 a7 a8 false t) = true := h
    simp only [Bool.or_eq_true, Bool.not_eq_true'] at hc
    exact atMost_sound 10 _ _ _ _ _ _ _ _ _ false t ht
      (hc.resolve_left (by rw [isE_eq]; simpa using hj))
  · have hc : (!isE a5 || atMost 10 a0 a1 a2 a3 a4 PLAYER1 a6 a7 a8 false t) = true := h
    simp only [Bool.or_eq_true, Bool.not_eq_true'] at hc
    exact atMost_sound 10 _ _ _ _ _ _ _ _ _ false t ht
      (hc.resolve_left (by rw [isE_eq]; simpa using hj))
  · have hc : (!isE a6 || atMost 10 a0 a1 a2 a3 a4 a5 PLAYER1 a7 a8 false t) = true := h
    simp only [Bool.or_eq_true, Bool.not_eq_true'] at hc
    exact atMost_sound 10 _ _ _ _ _ _ _ _ _ false t ht
      (hc.resolve_left (by rw [isE_eq]; simpa using hj))
  · have hc : (!isE a7 || atMost 10 a0 a1 a2 a3 a4 a5 a6 PLAYER1 a8 false t) = true := h
    simp only [Bool.or_eq_true, Bool.not_eq_true'] at hc
    exact atMost_sound 10 _ _ _ _ _ _ _ _ _ false t ht
      (hc.resolve_left (by rw [isE_eq]; simpa using hj))
  · have hc : (!isE a8 || atMost 10 a0 a1 a2 a3 a4 a5 a6 a7 PLAYER1 false t) = true := h
    simp only [Bool.or_eq_true, Bool.not_eq_true'] at hc
    exact atMost_sound 10 _ _ _ _ _ _ _ _ _ false t ht
      (hc.resolve_left (by rw [isE_eq]; simpa using hj))

theorem cellAtLeast_sound (a0 a1 a2 a3 a4 a5 a6 a7 a8 : Mark) (j : Fin 9) (t : Int)
    (ht : t ≤ 1) (h : cellAtLeast a0 a1 a2 a3 a4 a5 a6 a7 a8 j t = true) :
    (mkBoard a0 a1 a2 a3 a4 a5 a6 a7 a8).get j = EMPTY ∧
      t ≤ cellScore (mkBoard a0 a1 a2 a3 a4 a5 a6 a7 a8) j := by
  fin_cases j
  · have hc : (isE a0 && atLeast 10 PLAYER1 a1 a2 a3 a4 a5 a6 a7 a8 false t) = true := h
    simp only [Bool.and_eq_true] at hc
    refine ⟨?_, atLeast_sound 10 _ _ _ _ _ _ _ _ _ false t ht hc.2⟩
    have he := hc.1
    rw [isE_eq] at he
    simpa using he
  · have hc : (isE a1 && atLeast 10 a0 PLAYER1 a2 a3 a4 a5 a6 a7 a8 false t) = true := h
    simp only [Bool.and_eq_true] at hc
    refine ⟨?_, atLeast_sound 10 _ _ _ _ _ _ _ _ _ false t ht hc.2⟩
    have he := hc.1
    rw [isE_eq] at he
    simpa using he
  · have hc : (isE a2 && atLeast 10 a0 a1 PLAYER1 a3 a4 a5 a6 a7 a8 false t) = true := h
    simp only [Bool.and_eq_true] at hc
    refine ⟨?_, atLeast_sound 10 _ _ _ _ _ _ _ _ _ false t ht hc.2⟩
    have he := hc.1
    rw [isE_eq] at he
    simpa using he
  · have hc : (isE a3 && atLeast 10 a0 a1 a2 PLAYER1 a4 a5 a6 a7 a8 false t) = true := h
    simp only [Bool.and_eq_true] at hc
    refine ⟨?_, atLeast_sound 10 _ _ _ _ _ _ _ _ _ false t ht hc.2⟩
    have he := hc.1
    rw [isE_eq] at he
    simpa using he
  · have hc : (isE a4 && atLeast 10 a0 a1 a2 a3 PLAYER1 a5 a6 a7 a8 false t) = true := h
    simp only [Bool.and_eq_true] at hc
    refine ⟨?_, atLeast_sound 10 _ _ _ _ _ _ _ _ _ false t ht hc.2⟩
    have he := hc.1
    rw [isE_eq] at he
    simpa using he
  · have hc : (isE a5 && atLeast 10 a0 a1 a2 a3 a4 PLAYER1 a6 a7 a8 false t) = true := h
    simp only [Bool.and_eq_true] at hc
    refine ⟨?_, atLeast_sound 10 _ _ _ _ _ _ _ _ _ false t ht hc.2⟩
    have he := hc.1
    rw [isE_eq] at he
    simpa using he
  · have hc : (isE a6 && atLeast 10 a0 a1 a2 a3 a4 a5 PLAYER1 a7 a8 false t) = true := h
    simp only [Bool.and_eq_true] at hc
    refine ⟨?_, atLeast_sound 10 _ _ _ _ _ _ _ _ _ false t ht hc.2⟩
    have he := hc.1
    rw [isE_eq] at he
    simpa using he
  · have hc : (isE a7 && atLeast 10 a0 a1 a2 a3 a4 a5 a6 PLAYER1 a8 false t) = true := h
    simp only [Bool.and_eq_true] at hc
    refine ⟨?_, atLeast_sound 10 _ _ _ _ _ _ _ _ _ false t ht hc.2⟩
    have he := hc.1
    rw [isE_eq] at he
    simpa using he
  · have hc : (isE a8 && atLeast 10 a0 a1 a2 a3 a4 a5 a6 a7 PLAYER1 false t) = true := h
    simp only [Bool.and_eq_true] at hc
    refine ⟨?_, atLeast_sound 10 _ _ _ _ _ _ _ _ _ false t ht hc.2⟩
    have he := hc.1
    rw [isE_eq] at he
    simpa using he

/-- A board that passes `bestCert` for `r` is one on which `bestMove` returns `r`. -/
theorem bestCert_sound (g : TicTacToe) (a0 a1 a2 a3 a4 a5 a6 a7 a8 : Mark)
    (hb : g.board = mkBoard a0 a1 a2 a3 a4 a5 a6 a7 a8) (r : Fin 9) (v : Int)
    (h : bestCert a0 a1 a2 a3 a4 a5 a6 a7 a8 r v = true) :
    bestMove g = .ok ((r.val : Int), g) := by
  simp only [bestCert, Bool.and_eq_true, decide_eq_true_eq, List.all_eq_true] at h
  obtain ⟨⟨⟨hv1, hv2⟩, hr⟩, hall⟩ := h
  obtain ⟨hre, hrv⟩ := cellAtLeast_sound a0 a1 a2 a3 a4 a5 a6 a7 a8 r v hv2 hr
  apply bestMove_eq_of_bounds g r v
  · rw [hb]
    exact hre
  · rw [hb]
    exact hrv
  · intro j hrj hj
    rw [hb] at hj ⊢
    have hc := hall j (mem_cells j)
    rw [if_neg (not_lt.2 (le_of_lt hrj)), if_pos hrj] at hc
    exact cellAtMost_sound a0 a1 a2 a3 a4 a5 a6 a7 a8 j v (by omega) hc hj
  · intro j hjr hj
    rw [hb] at hj ⊢
    have hc := hall j (mem_cells j)
    rw [if_pos hjr] at hc
    have := cellAtMost_sound a0 a1 a2 a3 a4 a5 a6 a7 a8 j (v - 1) hv1 hc hj
    omega

/-! ## Win detection -/

theorem checkWin_iff (board : Board) (p : Mark) :
    checkWin board p = true ↔ ownsLine board p := by
  simp only [checkWin, ownsLine, lines, Bool.or_eq_true, Bool.and_eq_true, beq_iff_eq,
    List.mem_cons, List.mem_singleton, List.not_mem_nil, or_false, exists_eq_or_imp,
    exists_eq_left, and_assoc, or_assoc]

theorem get_of_set_ne (board : Board) (i j : Fin 9) (p q : Mark) (hqp : q ≠ p)
    (h : (board.set i p).get j = q) : board.get j = q := by
  by_cases hij : i = j
  · subst hij
    rw [Mathlib.Vector.get_set_same] at h
    exact absurd h.symm hqp
  · rwa [Mathlib.Vector.get_set_of_ne hij] at h

/-- Placing a mark completes no line for another mark. -/
theorem checkWin_set_other (board : Board) (i : Fin 9) (p q : Mark) (hqp : q ≠ p)
    (h : checkWin (board.set i p) q = true) : checkWin board q = true := by
  rw [checkWin_iff] at h ⊢
  obtain ⟨l, hl, h1, h2, h3⟩ := h
  exact ⟨l, hl, get_of_set_ne board i _ p q hqp h1, get_of_set_ne board i _ p q hqp h2,
    get_of_set_ne board i _ p q hqp h3⟩

theorem specOutcome_eq (board : Board) :
    specOutcome board =
      if checkWin board PLAYER1 = true then Outcome.FirstWins
      else if checkWin board PLAYER2 = true then Outcome.SecondWins
      else if checkTie board = true then Outcome.Draw
      else Outcome.InProgress := by
  unfold specOutcome
  simp only [checkWin_iff, checkTie_eq_true_iff]

/-- C1: for every board and every mark `p`, `checkWin(p)` is true if and only if
one of the eight lines (three rows, three columns, two diagonals) holds `p` in
all three of its cells. -/
theorem checkWin_iff_ownsLine (board : Board) (p : Mark) :
    checkWin board p = true ↔ ownsLine board p :=
  checkWin_iff board p

/-! ## The search leaves the object as it was -/

/-- C3: `minimax` returns with the board cell for cell as it was before the call,
and so does `bestMove`, which also leaves `currentPlayer` (and every other
member) unchanged; a second `bestMove` call on the object the first one left
returns the same index. -/
theorem search_restores_board (g : TicTacToe) (isMaximizing : Bool) :
    (∃ score, minimax g.board isMaximizing = .ok (score, g.board)) ∧
    (∃ move, bestMove g = .ok (move, g) ∧
      (match bestMove g with
        | .ok (_, g1) => bestMove g1
        | .error e => .error e) = .ok (move, g)) := by
  refine ⟨⟨_, minimax_eq g.board isMaximizing⟩, ⟨_, bestMove_eq g, ?_⟩⟩
  simp only [bestMove_eq g]

/-! ## Move requests -/

theorem toNat_fin (i : Fin 9) : (⟨((i.val : Nat) : Int).toNat, by omega⟩ : Fin 9) = i := by
  apply Fin.ext
  simp

theorem fin_range (i : Fin 9) : 0 ≤ ((i.val : Nat) : Int) ∧ ((i.val : Nat) : Int) < 9 := by
  omega

/-- C5: a click on a cell that is already occupied returns with the object (all
nine cells, the side to move and everything else) exactly as it was, and a
second such click changes nothing either. -/
theorem handleButtonClick_occupied (g : TicTacToe) (i : Fin 9) (h : g.board.get i ≠ EMPTY) :
    handleButtonClick g (i.val : Int) = .ok g ∧
    (match handleButtonClick g (i.val : Int) with
      | .ok g1 => handleButtonClick g1 (i.val : Int)
      | .error e => .error e) = .ok g := by
  have h1 : handleButtonClick g (i.val : Int) = .ok g := by
    unfold handleButtonClick
    rw [dif_pos (fin_range i), toNat_fin, if_pos (Or.inl h)]
  exact ⟨h1, by simp only [h1]⟩

theorem handleButtonClick_occupied_witness :
    cornersAndCentre.board.get 8 ≠ EMPTY ∧
    (handleButtonClick cornersAndCentre (((8 : Fin 9).val : Nat) : Int)
        = .ok cornersAndCentre ∧
     (match handleButtonClick cornersAndCentre (((8 : Fin 9).val : Nat) : Int) with
      | .ok g1 => handleButtonClick g1 (((8 : Fin 9).val : Nat) : Int)
      | .error e => .error e) = .ok cornersAndCentre) :=
  ⟨by decide, handleButtonClick_occupied cornersAndCentre 8 (by decide)⟩

/-- C6, as the code has it: no range check guards `board[index]`.  For every
object and every index below `0` or above `8`, `handleButtonClick` and
`makeMove` do not reject the request: they index the vector out of range.
For every index in `0..8` both return normally, with no access out of range. -/
theorem index_range_dichotomy (g : TicTacToe) (index : Int) :
    ((index < 0 ∨ 9 ≤ index) ∧
      handleButtonClick g index = .error Fault.outOfRange ∧
      makeMove g index = .error Fault.outOfRange) ∨
    ((0 ≤ index ∧ index < 9) ∧
      (∃ g1, handleButtonClick g index = .ok g1) ∧ ∃ g2, makeMove g index = .ok g2) := by
  by_cases h : 0 ≤ index ∧ index < 9
  · right
    have hm : ∃ g2, makeMove g index = .ok g2 := by
      unfold makeMove
      rw [dif_pos h]
      simp only
      split_ifs <;> exact ⟨_, rfl⟩
    refine ⟨h, ?_, hm⟩
    unfold handleButtonClick
    rw [dif_pos h]
    split_ifs
    · exact ⟨_, rfl⟩
    · exact hm
  · left
    refine ⟨by omega, ?_, ?_⟩
    · unfold handleButtonClick
      rw [dif_neg h]
    · unfold makeMove
      rw [dif_neg h]

/-- C6 fails as stated: a click with index `9` on the fresh game is not rejected
with the object unchanged; the vector is indexed out of range. -/
theorem click_nine_not_rejected :
    handleButtonClick initial 9 = .error Fault.outOfRange ∧
    handleButtonClick initial 9 ≠ .ok initial := by
  have h : handleButtonClick initial 9 = .error Fault.outOfRange := by
    unfold handleButtonClick
    rw [dif_neg (by decide)]
  refine ⟨h, ?_⟩
  rw [h]
  intro hc
  cases hc

/-! ## Reset -/

theorem get_replicate_empty (i : Fin 9) :
    (Mathlib.Vector.replicate 9 EMPTY : Board).get i = EMPTY := by
  fin_cases i <;> rfl

/-- C8: whatever the object was before (any board, any side to move, any mode),
after `resetGame` all nine cells are `EMPTY`, the side to move is `PLAYER1`, and
the game is in progress: no side has won and the board is not full. -/
theorem resetGame_fresh (g : TicTacToe) :
    (∀ i, (resetGame g).board.get i = EMPTY) ∧
    (resetGame g).currentPlayer = PLAYER1 ∧
    checkWin (resetGame g).board PLAYER1 = false ∧
    checkWin (resetGame g).board PLAYER2 = false ∧
    checkTie (resetGame g).board = false ∧
    specOutcome (resetGame g).board = Outcome.InProgress := by
  have hb : (resetGame g).board = Mathlib.Vector.replicate 9 EMPTY := by
    simp only [resetGame]
    split_ifs <;> rfl
  have hc : (resetGame g).currentPlayer = PLAYER1 := by
    simp only [resetGame]
    split_ifs <;> rfl
  rw [hb]
  refine ⟨get_replicate_empty, hc, by decide, by decide, by decide, by decide⟩

/-! ## The effect of a move -/

theorem resetGame_board (g : TicTacToe) :
    (resetGame g).board = Mathlib.Vector.replicate 9 EMPTY := by
  simp only [resetGame]
  split_ifs <;> rfl

theorem resetGame_currentPlayer (g : TicTacToe) : (resetGame g).currentPlayer = PLAYER1 := by
  simp only [resetGame]
  split_ifs <;> rfl

theorem resetGame_dialogs (g : TicTacToe) : (resetGame g).dialogs = g.dialogs := by
  simp only [resetGame]
  split_ifs <;> rfl

theorem resetGame_mode (g : TicTacToe) : (resetGame g).mode = g.mode := by
  simp only [resetGame]
  split_ifs <;> rfl

theorem makeMove_win (g : TicTacToe) (i : Fin 9)
    (h : checkWin (g.board.set i g.currentPlayer) g.currentPlayer = true) :
    makeMove g (i.val : Int) = .ok (gameOver { g with board := g.board.set i g.currentPlayer }
      (Dialog.wins g.currentPlayer)) := by
  unfold makeMove
  rw [dif_pos (fin_range i)]
  simp only [toNat_fin, h, if_true]

theorem makeMove_tie (g : TicTacToe) (i : Fin 9)
    (h : checkWin (g.board.set i g.currentPlayer) g.currentPlayer = false)
    (ht : checkTie (g.board.set i g.currentPlayer) = true) :
    makeMove g (i.val : Int) = .ok (gameOver { g with board := g.board.set i g.currentPlayer }
      Dialog.tie) := by
  unfold makeMove
  rw [dif_pos (fin_range i)]
  simp only [toNat_fin, h, ht, if_true, Bool.false_eq_true, if_false]

theorem makeMove_continue (g : TicTacToe) (i : Fin 9)
    (h : checkWin (g.board.set i g.currentPlayer) g.currentPlayer = false)
    (ht : checkTie (g.board.set i g.currentPlayer) = false) :
    ∃ g1, makeMove g (i.val : Int) = .ok g1 ∧ g1.board = g.board.set i g.currentPlayer ∧
      g1.currentPlayer = (if g.currentPlayer = PLAYER1 then PLAYER2 else PLAYER1) ∧
      g1.dialogs = g.dialogs ∧ g1.mode = g.mode := by
  unfold makeMove
  rw [dif_pos (fin_range i)]
  simp only [toNat_fin, h, ht, Bool.false_eq_true, if_false]
  split_ifs <;> exact ⟨_, rfl, rfl, by simp_all, rfl, rfl⟩

/-- C4, as the code has it: for every object and every cell `i` in `0..8`,
`makeMove` returns, and
* if the move neither completes a line for the mover nor fills the board, cell
  `i` holds the mover's mark, the other eight cells are unchanged, the side to
  move is flipped and no dialog is shown;
* otherwise the game-over dialog is shown and the game is reset at once: all
  nine cells are `EMPTY` (cell `i` too) and `PLAYER1` is to move. -/
theorem makeMove_effect (g : TicTacToe) (i : Fin 9) :
    ∃ g1, makeMove g (i.val : Int) = .ok g1 ∧
      ((checkWin (g.board.set i g.currentPlayer) g.currentPlayer = false ∧
          checkTie (g.board.set i g.currentPlayer) = false ∧
          (∀ j, g1.board.get j = if j = i then g.currentPlayer else g.board.get j) ∧
          g1.currentPlayer = (if g.currentPlayer = PLAYER1 then PLAYER2 else PLAYER1) ∧
          g1.dialogs = g.dialogs) ∨
       ((checkWin (g.board.set i g.currentPlayer) g.currentPlayer = true ∨
          checkTie (g.board.set i g.currentPlayer) = true) ∧
          (∀ j, g1.board.get j = EMPTY) ∧ g1.currentPlayer = PLAYER1 ∧
          g1.dialogs = g.dialogs ++
            [if checkWin (g.board.set i g.currentPlayer) g.currentPlayer
              then Dialog.wins g.currentPlayer else Dialog.tie])) := by
  cases h : checkWin (g.board.set i g.currentPlayer) g.currentPlayer
  · cases ht : checkTie (g.board.set i g.currentPlayer)
    · obtain ⟨g1, hg1, hb, hc, hd, _⟩ := makeMove_continue g i h ht
      refine ⟨g1, hg1, Or.inl ⟨rfl, rfl, ?_, hc, hd⟩⟩
      intro j
      rw [hb, Mathlib.Vector.get_set_eq_if]
      by_cases hji : j = i
      · simp [hji]
      · have hij : ¬ i = j := fun e => hji e.symm
        simp [hji, hij]
    · refine ⟨_, makeMove_tie g i h ht, Or.inr ⟨Or.inr rfl, ?_, ?_, ?_⟩⟩
      · intro j
        rw [gameOver, resetGame_board]
        exact get_replicate_empty j
      · rw [gameOver, resetGame_currentPlayer]
      · rw [gameOver, resetGame_dialogs]
        simp
  · refine ⟨_, makeMove_win g i h, Or.inr ⟨Or.inl rfl, ?_, ?_, ?_⟩⟩
    · intro j
      rw [gameOver, resetGame_board]
      exact get_replicate_empty j
    · rw [gameOver, resetGame_currentPlayer]
    · rw [gameOver, resetGame_dialogs]
      simp

/-- C4 fails as stated: on the board `X X _ / O O _ / _ _ _` with `PLAYER1` to
move, the click on the `EMPTY` cell 2 completes the top row; after the move
cell 2 does not hold the mover's mark and cell 0 is not unchanged, because the
game has been reset. -/
theorem winning_click_clears_board :
    handleButtonClick beforeTopRow 2 = .ok
      { mode := 1, currentPlayer := PLAYER1,
        board := mkBoard EMPTY EMPTY EMPTY
                         EMPTY EMPTY EMPTY
                         EMPTY EMPTY EMPTY,
        aiTimers := 0, dialogs := [Dialog.wins PLAYER1] } := by
  rfl

/-! ## After a win -/

theorem first_mark_continues (j : Fin 9) :
    checkWin ((Mathlib.Vector.replicate 9 EMPTY : Board).set j PLAYER1) PLAYER1 = false ∧
    checkTie ((Mathlib.Vector.replicate 9 EMPTY : Board).set j PLAYER1) = false := by
  fin_cases j <;> exact ⟨rfl, rfl⟩

/-- C7 fails as stated: after the clicks 0, 3, 1, 4, 2 on a fresh game `PLAYER1`
has completed the top row and the win has been reported, yet the next click
(cell 5) is accepted and changes the board, with no reset requested. -/
theorem click_after_win_accepted :
    clicks [0, 3, 1, 4, 2] initial = .ok { initial with dialogs := [Dialog.wins PLAYER1] } ∧
    clicks [0, 3, 1, 4, 2, 5] initial = .ok
      { mode := 1, currentPlayer := PLAYER2,
        board := mkBoard EMPTY EMPTY EMPTY
                         EMPTY EMPTY PLAYER1
                         EMPTY EMPTY EMPTY,
        aiTimers := 0, dialogs := [Dialog.wins PLAYER1] } :=
  ⟨rfl, rfl⟩

/-! ## The reported outcome -/

theorem reachable_inv (g : TicTacToe) (h : Reachable g) :
    (g.currentPlayer = PLAYER1 ∨ g.currentPlayer = PLAYER2) ∧
    checkWin g.board PLAYER1 = false ∧ checkWin g.board PLAYER2 = false := by
  have hfresh : ∀ g0 : TicTacToe,
      ((resetGame g0).currentPlayer = PLAYER1 ∨ (resetGame g0).currentPlayer = PLAYER2) ∧
      checkWin (resetGame g0).board PLAYER1 = false ∧
      checkWin (resetGame g0).board PLAYER2 = false := by
    intro g0
    rw [resetGame_board, resetGame_currentPlayer]
    exact ⟨Or.inl rfl, rfl, rfl⟩
  induction h with
  | fresh g0 => exact hfresh g0
  | move g g1 i _ _ hmove ih =>
    obtain ⟨hcur, hx, ho⟩ := ih
    cases hw : checkWin (g.board.set i g.currentPlayer) g.currentPlayer
    · have hother : ∀ q, q ≠ g.currentPlayer → checkWin g.board q = false →
          checkWin (g.board.set i g.currentPlayer) q = false := by
        intro q hq hb
        cases hc : checkWin (g.board.set i g.currentPlayer) q
        · rfl
        · have := checkWin_set_other g.board i g.currentPlayer q hq hc
          rw [hb] at this
          exact Bool.noConfusion this
      cases ht : checkTie (g.board.set i g.currentPlayer)
      · obtain ⟨g2, hg2, hb2, hc2, _, _⟩ := makeMove_continue g i hw ht
        rw [hmove] at hg2
        cases hg2
        rw [hb2, hc2]
        rcases hcur with hcur | hcur
        · have h2 := hother PLAYER2 (by rw [hcur]; decide) ho
          rw [hcur] at hw h2 ⊢
          exact ⟨Or.inr rfl, hw, h2⟩
        · have h1 := hother PLAYER1 (by rw [hcur]; decide) hx
          rw [hcur] at hw h1 ⊢
          exact ⟨Or.inl rfl, h1, hw⟩
      · rw [makeMove_tie g i hw ht] at hmove
        cases hmove
        exact hfresh _
    · rw [makeMove_win g i hw] at hmove
      cases hmove
      exact hfresh _

/-- C9: in every object reached from a fresh game by moves on `EMPTY` cells, a
further move on an `EMPTY` cell reports (by its game-over dialog, or by showing
none) exactly the outcome that the board with the new mark has on its own:
a side's win iff that side owns a line, a draw iff no cell is `EMPTY` and
neither side owns a line, in progress otherwise; and on that board the two
sides never both own a line. -/
theorem reported_outcome_agrees (g : TicTacToe) (hr : Reachable g) (i : Fin 9)
    (_hi : g.board.get i = EMPTY) :
    ∃ g1, makeMove g (i.val : Int) = .ok g1 ∧
      g1.dialogs = g.dialogs ++ dialogOf (specOutcome (g.board.set i g.currentPlayer)) ∧
      ¬ (ownsLine (g.board.set i g.currentPlayer) PLAYER1 ∧
         ownsLine (g.board.set i g.currentPlayer) PLAYER2) := by
  obtain ⟨hcur, hx, ho⟩ := reachable_inv g hr
  have hother : ∀ q, q ≠ g.currentPlayer → checkWin g.board q = false →
      checkWin (g.board.set i g.currentPlayer) q = false := by
    intro q hq hb
    cases hc : checkWin (g.board.set i g.currentPlayer) q
    · rfl
    · have := checkWin_set_other g.board i g.currentPlayer q hq hc
      rw [hb] at this
      exact Bool.noConfusion this
  have hnot : ¬ (ownsLine (g.board.set i g.currentPlayer) PLAYER1 ∧
      ownsLine (g.board.set i g.currentPlayer) PLAYER2) := by
    rw [← checkWin_iff, ← checkWin_iff]
    rcases hcur with hcur | hcur
    · have := hother PLAYER2 (by rw [hcur]; decide) ho
      simp [this]
    · have := hother PLAYER1 (by rw [hcur]; decide) hx
      simp [this]
  rw [specOutcome_eq]
  cases hw : checkWin (g.board.set i g.currentPlayer) g.currentPlayer
  · have h1 : checkWin (g.board.set i g.currentPlayer) PLAYER1 = false := by
      rcases hcur with hcur | hcur
      · rw [hcur] at hw ⊢
        exact hw
      · exact hother PLAYER1 (by rw [hcur]; decide) hx
    have h2 : checkWin (g.board.set i g.currentPlayer) PLAYER2 = false := by
      rcases hcur with hcur | hcur
      · exact hother PLAYER2 (by rw [hcur]; decide) ho
      · rw [hcur] at hw ⊢
        exact hw
    cases ht : checkTie (g.board.set i g.currentPlayer)
    · obtain ⟨g2, hg2, _, _, hd2, _⟩ := makeMove_continue g i hw ht
      refine ⟨g2, hg2, ?_, hnot⟩
      simp [h1, h2, hd2, dialogOf]
    · refine ⟨_, makeMove_tie g i hw ht, ?_, hnot⟩
      rw [gameOver, resetGame_dialogs]
      simp [h1, h2, dialogOf]
  · refine ⟨_, makeMove_win g i hw, ?_, hnot⟩
    rw [gameOver, resetGame_dialogs]
    rcases hcur with hcur | hcur
    · rw [hcur] at hw ⊢
      simp [hw, dialogOf]
    · have h1 := hother PLAYER1 (by rw [hcur]; decide) hx
      rw [hcur] at hw h1 ⊢
      simp [hw, h1, dialogOf]

/-! ## What `bestMove` maximises -/

/-- C2, as the code has it: for every object with at least one `EMPTY` cell, and
whichever side is to move, `bestMove` returns an `EMPTY` cell whose score
(`PLAYER1` placed there, then `minimax(board, false)`) is maximal over the
`EMPTY` cells.  The side to move is not read: the search is always made for
`PLAYER1`. -/
theorem bestMove_maximal (g : TicTacToe) (h : ∃ i, g.board.get i = EMPTY) :
    ∃ r : Fin 9, bestMove g = .ok ((r.val : Int), g) ∧ g.board.get r = EMPTY ∧
      ∀ j, g.board.get j = EMPTY → ∃ sj sr,
        minimax (g.board.set j PLAYER1) false = .ok (sj, g.board.set j PLAYER1) ∧
        minimax (g.board.set r PLAYER1) false = .ok (sr, g.board.set r PLAYER1) ∧
        sj ≤ sr := by
  obtain ⟨r, hr, hre, hmax, _⟩ := bestMove_spec g h
  refine ⟨r, hr, hre, ?_⟩
  intro j hj
  exact ⟨_, _, minimax_eq _ _, minimax_eq _ _, hmax j hj⟩

theorem bestMove_maximal_witness :
    (∃ i, afterFirstMove.board.get i = EMPTY) ∧
    ∃ r : Fin 9, bestMove afterFirstMove = .ok ((r.val : Int), afterFirstMove) ∧
      afterFirstMove.board.get r = EMPTY ∧
      ∀ j, afterFirstMove.board.get j = EMPTY → ∃ sj sr,
        minimax (afterFirstMove.board.set j PLAYER1) false
          = .ok (sj, afterFirstMove.board.set j PLAYER1) ∧
        minimax (afterFirstMove.board.set r PLAYER1) false
          = .ok (sr, afterFirstMove.board.set r PLAYER1) ∧
        sj ≤ sr :=
  ⟨⟨1, rfl⟩, bestMove_maximal afterFirstMove ⟨1, rfl⟩⟩

theorem minimax_of_bounds (a0 a1 a2 a3 a4 a5 a6 a7 a8 : Mark) (isMaximizing : Bool)
    (v : Int) (hv : -1 ≤ v ∧ v ≤ 1)
    (hge : atLeast 10 a0 a1 a2 a3 a4 a5 a6 a7 a8 isMaximizing v = true)
    (hle : atMost 10 a0 a1 a2 a3 a4 a5 a6 a7 a8 isMaximizing v = true) :
    minimax (mkBoard a0 a1 a2 a3 a4 a5 a6 a7 a8) isMaximizing
      = .ok (v, mkBoard a0 a1 a2 a3 a4 a5 a6 a7 a8) := by
  rw [minimax_eq]
  have h1 := atLeast_sound 10 a0 a1 a2 a3 a4 a5 a6 a7 a8 isMaximizing v hv.2 hge
  have h2 := atMost_sound 10 a0 a1 a2 a3 a4 a5 a6 a7 a8 isMaximizing v hv.1 hle
  have h3 : scoreFuel 10 (mkBoard a0 a1 a2 a3 a4 a5 a6 a7 a8) isMaximizing = v := le_antisymm h2 h1
  rw [h3]

theorem makeAIMove_of_bestMove (g : TicTacToe) (r : Fin 9)
    (h : bestMove g = .ok ((r.val : Int), g)) : makeAIMove g = makeMove g (r.val : Int) := by
  unfold makeAIMove
  rw [h]
  have : ((r.val : Nat) : Int) ≠ -1 := by omega
  simp only [this, ne_eq, not_false_eq_true, if_true]

theorem selfPlay_succ (n : Nat) (g g1 : TicTacToe) (h : makeAIMove g = .ok g1) :
    selfPlay (n + 1) g = selfPlay n g1 := by
  rw [selfPlay, h]

theorem atLeast_edge_reply :
    atLeast 10
      PLAYER1 PLAYER2 EMPTY
      EMPTY EMPTY EMPTY
      EMPTY EMPTY EMPTY
      true 1 = true := by
  decide!

theorem atMost_edge_reply :
    atMost 10
      PLAYER1 PLAYER2 EMPTY
      EMPTY EMPTY EMPTY
      EMPTY EMPTY EMPTY
      true 1 = true := by
  decide!

theorem atLeast_centre_reply :
    atLeast 10
      PLAYER1 EMPTY EMPTY
      EMPTY PLAYER2 EMPTY
      EMPTY EMPTY EMPTY
      true 0 = true := by
  decide!

theorem atMost_centre_reply :
    atMost 10
      PLAYER1 EMPTY EMPTY
      EMPTY PLAYER2 EMPTY
      EMPTY EMPTY EMPTY
      true 0 = true := by
  decide!

theorem bestCert_move1 :
    bestCert EMPTY EMPTY EMPTY
             EMPTY EMPTY EMPTY
             EMPTY EMPTY EMPTY
      0 0 = true := by
  decide!

theorem makeMove_move1 :
    makeMove
      (position
        (mkBoard EMPTY EMPTY EMPTY
                 EMPTY EMPTY EMPTY
                 EMPTY EMPTY EMPTY)
        PLAYER1)
      ((0 : Fin 9).val : Int)
      = .ok
      (position
        (mkBoard PLAYER1 EMPTY EMPTY
                 EMPTY EMPTY EMPTY
                 EMPTY EMPTY EMPTY)
        PLAYER2) :=
  rfl

theorem makeAIMove_move1 :
    makeAIMove
      (position
        (mkBoard EMPTY EMPTY EMPTY
                 EMPTY EMPTY EMPTY
                 EMPTY EMPTY EMPTY)
        PLAYER1)
      = .ok
      (position
        (mkBoard PLAYER1 EMPTY EMPTY
                 EMPTY EMPTY EMPTY
                 EMPTY EMPTY EMPTY)
        PLAYER2) :=
  (makeAIMove_of_bestMove _ 0
    (bestCert_sound
      (position
        (mkBoard EMPTY EMPTY EMPTY
                 EMPTY EMPTY EMPTY
                 EMPTY EMPTY EMPTY)
        PLAYER1)
      EMPTY EMPTY EMPTY
      EMPTY EMPTY EMPTY
      EMPTY EMPTY EMPTY
      rfl 0 0 bestCert_move1)).trans makeMove_move1

theorem bestCert_move2 :
    bestCert PLAYER1 EMPTY EMPTY
             EMPTY EMPTY EMPTY
             EMPTY EMPTY EMPTY
      1 1 = true := by
  decide!

theorem makeMove_move2 :
    makeMove
      (position
        (mkBoard PLAYER1 EMPTY EMPTY
                 EMPTY EMPTY EMPTY
                 EMPTY EMPTY EMPTY)
        PLAYER2)
      ((1 : Fin 9).val : Int)
      = .ok
      (position
        (mkBoard PLAYER1 PLAYER2 EMPTY
                 EMPTY EMPTY EMPTY
                 EMPTY EMPTY EMPTY)
        PLAYER1) :=
  rfl

theorem makeAIMove_move2 :
    makeAIMove
      (position
        (mkBoard PLAYER1 EMPTY EMPTY
                 EMPTY EMPTY EMPTY
                 EMPTY EMPTY EMPTY)
        PLAYER2)
      = .ok
      (position
        (mkBoard PLAYER1 PLAYER2 EMPTY
                 EMPTY EMPTY EMPTY
                 EMPTY EMPTY EMPTY)
        PLAYER1) :=
  (makeAIMove_of_bestMove _ 1
    (bestCert_sound
      (position
        (mkBoard PLAYER1 EMPTY EMPTY
                 EMPTY EMPTY EMPTY
                 EMPTY EMPTY EMPTY)
        PLAYER2)
      PLAYER1 EMPTY EMPTY
      EMPTY EMPTY EMPTY
      EMPTY EMPTY EMPTY
      rfl 1 1 bestCert_move2)).trans makeMove_move2

theorem bestCert_move3 :
    bestCert PLAYER1 PLAYER2 EMPTY
             EMPTY EMPTY EMPTY
             EMPTY EMPTY EMPTY
      3 1 = true := by
  decide!

theorem makeMove_move3 :
    makeMove
      (position
        (mkBoard PLAYER1 PLAYER2 EMPTY
                 EMPTY EMPTY EMPTY
                 EMPTY EMPTY EMPTY)
        PLAYER1)
      ((3 : Fin 9).val : Int)
      = .ok
      (position
        (mkBoard PLAYER1 PLAYER2 EMPTY
                 PLAYER1 EMPTY EMPTY
                 EMPTY EMPTY EMPTY)
        PLAYER2) :=
  rfl

theorem makeAIMove_move3 :
    makeAIMove
      (position
        (mkBoard PLAYER1 PLAYER2 EMPTY
                 EMPTY EMPTY EMPTY
                 EMPTY EMPTY EMPTY)
        PLAYER1)
      = .ok
      (position
        (mkBoard PLAYER1 PLAYER2 EMPTY
                 PLAYER1 EMPTY EMPTY
                 EMPTY EMPTY EMPTY)
        PLAYER2) :=
  (makeAIMove_of_bestMove _ 3
    (bestCert_sound
      (position
        (mkBoard PLAYER1 PLAYER2 EMPTY
                 EMPTY EMPTY EMPTY
                 EMPTY EMPTY EMPTY)
        PLAYER1)
      PLAYER1 PLAYER2 EMPTY
      EMPTY EMPTY EMPTY
      EMPTY EMPTY EMPTY
      rfl 3 1 bestCert_move3)).trans makeMove_move3

theorem bestCert_move4 :
    bestCert PLAYER1 PLAYER2 EMPTY
             PLAYER1 EMPTY EMPTY
             EMPTY EMPTY EMPTY
      2 1 = true := by
  decide!

theorem makeMove_move4 :
    makeMove
      (position
        (mkBoard PLAYER1 PLAYER2 EMPTY
                 PLAYER1 EMPTY EMPTY
                 EMPTY EMPTY EMPTY)
        PLAYER2)
      ((2 : Fin 9).val : Int)
      = .ok
      (position
        (mkBoard PLAYER1 PLAYER2 PLAYER2
                 PLAYER1 EMPTY EMPTY
                 EMPTY EMPTY EMPTY)
        PLAYER1) :=
  rfl

theorem makeAIMove_move4 :
    makeAIMove
      (position
        (mkBoard PLAYER1 PLAYER2 EMPTY
                 PLAYER1 EMPTY EMPTY
                 EMPTY EMPTY EMPTY)
        PLAYER2)
      = .ok
      (position
        (mkBoard PLAYER1 PLAYER2 PLAYER2
                 PLAYER1 EMPTY EMPTY
                 EMPTY EMPTY EMPTY)
        PLAYER1) :=
  (makeAIMove_of_bestMove _ 2
    (bestCert_sound
      (position
        (mkBoard PLAYER1 PLAYER2 EMPTY
                 PLAYER1 EMPTY EMPTY
                 EMPTY EMPTY EMPTY)
        PLAYER2)
      PLAYER1 PLAYER2 EMPTY
      PLAYER1 EMPTY EMPTY
      EMPTY EMPTY EMPTY
      rfl 2 1 bestCert_move4)).trans makeMove_move4

theorem bestCert_move5 :
    bestCert PLAYER1 PLAYER2 PLAYER2
             PLAYER1 EMPTY EMPTY
             EMPTY EMPTY EMPTY
      4 1 = true := by
  decide!

theorem makeMove_move5 :
    makeMove
      (position
        (mkBoard PLAYER1 PLAYER2 PLAYER2
                 PLAYER1 EMPTY EMPTY
                 EMPTY EMPTY EMPTY)
        PLAYER1)
      ((4 : Fin 9).val : Int)
      = .ok
      (position
        (mkBoard PLAYER1 PLAYER2 PLAYER2
                 PLAYER1 PLAYER1 EMPTY
                 EMPTY EMPTY EMPTY)
        PLAYER2) :=
  rfl

theorem makeAIMove_move5 :
    makeAIMove
      (position
        (mkBoard PLAYER1 PLAYER2 PLAYER2
                 PLAYER1 EMPTY EMPTY
                 EMPTY EMPTY EMPTY)
        PLAYER1)
      = .ok
      (position
        (mkBoard PLAYER1 PLAYER2 PLAYER2
                 PLAYER1 PLAYER1 EMPTY
                 EMPTY EMPTY EMPTY)
        PLAYER2) :=
  (makeAIMove_of_bestMove _ 4
    (bestCert_sound
      (position
        (mkBoard PLAYER1 PLAYER2 PLAYER2
                 PLAYER1 EMPTY EMPTY
                 EMPTY EMPTY EMPTY)
        PLAYER1)
      PLAYER1 PLAYER2 PLAYER2
      PLAYER1 EMPTY EMPTY
      EMPTY EMPTY EMPTY
      rfl 4 1 bestCert_move5)).trans makeMove_move5

theorem bestCert_move6 :
    bestCert PLAYER1 PLAYER2 PLAYER2
             PLAYER1 PLAYER1 EMPTY
             EMPTY EMPTY EMPTY
      5 1 = true := by
  decide!

theorem makeMove_move6 :
    makeMove
      (position
        (mkBoard PLAYER1 PLAYER2 PLAYER2
                 PLAYER1 PLAYER1 EMPTY
                 EMPTY EMPTY EMPTY)
        PLAYER2)
      ((5 : Fin 9).val : Int)
      = .ok
      (position
        (mkBoard PLAYER1 PLAYER2 PLAYER2
                 PLAYER1 PLAYER1 PLAYER2
                 EMPTY EMPTY EMPTY)
        PLAYER1) :=
  rfl

theorem makeAIMove_move6 :
    makeAIMove
      (position
        (mkBoard PLAYER1 PLAYER2 PLAYER2
                 PLAYER1 PLAYER1 EMPTY
                 EMPTY EMPTY EMPTY)
        PLAYER2)
      = .ok
      (position
        (mkBoard PLAYER1 PLAYER2 PLAYER2
                 PLAYER1 PLAYER1 PLAYER2
                 EMPTY EMPTY EMPTY)
        PLAYER1) :=
  (makeAIMove_of_bestMove _ 5
    (bestCert_sound
      (position
        (mkBoard PLAYER1 PLAYER2 PLAYER2
                 PLAYER1 PLAYER1 EMPTY
                 EMPTY EMPTY EMPTY)
        PLAYER2)
      PLAYER1 PLAYER2 PLAYER2
      PLAYER1 PLAYER1 EMPTY
      EMPTY EMPTY EMPTY
      rfl 5 1 bestCert_move6)).trans makeMove_move6

theorem bestCert_move7 :
    bestCert PLAYER1 PLAYER2 PLAYER2
             PLAYER1 PLAYER1 PLAYER2
             EMPTY EMPTY EMPTY
      6 1 = true := by
  decide!

theorem makeMove_move7 :
    makeMove
      (position
        (mkBoard PLAYER1 PLAYER2 PLAYER2
                 PLAYER1 PLAYER1 PLAYER2
                 EMPTY EMPTY EMPTY)
        PLAYER1)
      ((6 : Fin 9).val : Int)
      = .ok
      { position
        (mkBoard EMPTY EMPTY EMPTY
                 EMPTY EMPTY EMPTY
                 EMPTY EMPTY EMPTY)
        PLAYER1 with
        dialogs := [Dialog.wins PLAYER1] } :=
  rfl

theorem makeAIMove_move7 :
    makeAIMove
      (position
        (mkBoard PLAYER1 PLAYER2 PLAYER2
                 PLAYER1 PLAYER1 PLAYER2
                 EMPTY EMPTY EMPTY)
        PLAYER1)
      = .ok
      { position
        (mkBoard EMPTY EMPTY EMPTY
                 EMPTY EMPTY EMPTY
                 EMPTY EMPTY EMPTY)
        PLAYER1 with
        dialogs := [Dialog.wins PLAYER1] } :=
  (makeAIMove_of_bestMove _ 6
    (bestCert_sound
      (position
        (mkBoard PLAYER1 PLAYER2 PLAYER2
                 PLAYER1 PLAYER1 PLAYER2
                 EMPTY EMPTY EMPTY)
        PLAYER1)
      PLAYER1 PLAYER2 PLAYER2
      PLAYER1 PLAYER1 PLAYER2
      EMPTY EMPTY EMPTY
      rfl 6 1 bestCert_move7)).trans makeMove_move7

/-- C2 fails as stated: on the in-progress board `X _ _ / _ _ _ / _ _ _` with
`PLAYER2` to move, `bestMove` returns cell 1.  For `PLAYER2` the recursive
score of cell 1 (`PLAYER2` placed there, `PLAYER1` to move) is `1`, a lost
game, while cell 4 has the smaller score `0`: the returned cell is not
minimal over the `EMPTY` cells. -/
theorem bestMove_not_minimal_for_second :
    specOutcome
      (mkBoard PLAYER1 EMPTY EMPTY
               EMPTY EMPTY EMPTY
               EMPTY EMPTY EMPTY)
      = Outcome.InProgress ∧
    bestMove
      (position
        (mkBoard PLAYER1 EMPTY EMPTY
                 EMPTY EMPTY EMPTY
                 EMPTY EMPTY EMPTY)
        PLAYER2)
      = .ok (((1 : Fin 9).val : Int),
          position
            (mkBoard PLAYER1 EMPTY EMPTY
                     EMPTY EMPTY EMPTY
                     EMPTY EMPTY EMPTY)
            PLAYER2) ∧
    minimax
      (mkBoard PLAYER1 PLAYER2 EMPTY
               EMPTY EMPTY EMPTY
               EMPTY EMPTY EMPTY)
      true
      = .ok (1,
          mkBoard PLAYER1 PLAYER2 EMPTY
                  EMPTY EMPTY EMPTY
                  EMPTY EMPTY EMPTY) ∧
    minimax
      (mkBoard PLAYER1 EMPTY EMPTY
               EMPTY PLAYER2 EMPTY
               EMPTY EMPTY EMPTY)
      true
      = .ok (0,
          mkBoard PLAYER1 EMPTY EMPTY
                  EMPTY PLAYER2 EMPTY
                  EMPTY EMPTY EMPTY) :=
  ⟨by decide,
   bestCert_sound
      (position
        (mkBoard PLAYER1 EMPTY EMPTY
                 EMPTY EMPTY EMPTY
                 EMPTY EMPTY EMPTY)
        PLAYER2)
      PLAYER1 EMPTY EMPTY
      EMPTY EMPTY EMPTY
      EMPTY EMPTY EMPTY
      rfl 1 1 bestCert_move2,
   minimax_of_bounds
      PLAYER1 PLAYER2 EMPTY
      EMPTY EMPTY EMPTY
      EMPTY EMPTY EMPTY
      true 1 ⟨by decide, by decide⟩ atLeast_edge_reply atMost_edge_reply,
   minimax_of_bounds
      PLAYER1 EMPTY EMPTY
      EMPTY PLAYER2 EMPTY
      EMPTY EMPTY EMPTY
      true 0 ⟨by decide, by decide⟩ atLeast_centre_reply atMost_centre_reply⟩

/-! ## `bestMove` against itself -/

theorem initial_eq :
    initial =
      (position
        (mkBoard EMPTY EMPTY EMPTY
                 EMPTY EMPTY EMPTY
                 EMPTY EMPTY EMPTY)
        PLAYER1) :=
  rfl

theorem selfPlay_six :
    selfPlay 6 initial = .ok
      (position
        (mkBoard PLAYER1 PLAYER2 PLAYER2
                 PLAYER1 PLAYER1 PLAYER2
                 EMPTY EMPTY EMPTY)
        PLAYER1) :=
  (congrArg (selfPlay 6) initial_eq).trans
    ((selfPlay_succ 5 _ _ makeAIMove_move1).trans
    ((selfPlay_succ 4 _ _ makeAIMove_move2).trans
    ((selfPlay_succ 3 _ _ makeAIMove_move3).trans
    ((selfPlay_succ 2 _ _ makeAIMove_move4).trans
    ((selfPlay_succ 1 _ _ makeAIMove_move5).trans
    (selfPlay_succ 0 _ _ makeAIMove_move6))))))

theorem selfPlay_seven :
    selfPlay 7 initial = .ok
      { position
        (mkBoard EMPTY EMPTY EMPTY
                 EMPTY EMPTY EMPTY
                 EMPTY EMPTY EMPTY)
        PLAYER1 with
        dialogs := [Dialog.wins PLAYER1] } :=
  (congrArg (selfPlay 7) initial_eq).trans
    ((selfPlay_succ 6 _ _ makeAIMove_move1).trans
    ((selfPlay_succ 5 _ _ makeAIMove_move2).trans
    ((selfPlay_succ 4 _ _ makeAIMove_move3).trans
    ((selfPlay_succ 3 _ _ makeAIMove_move4).trans
    ((selfPlay_succ 2 _ _ makeAIMove_move5).trans
    ((selfPlay_succ 1 _ _ makeAIMove_move6).trans
    (selfPlay_succ 0 _ _ makeAIMove_move7)))))))

theorem atLeast_empty_board :
    atLeast 10
      EMPTY EMPTY EMPTY
      EMPTY EMPTY EMPTY
      EMPTY EMPTY EMPTY
      true 0 = true := by
  decide!

theorem atMost_empty_board :
    atMost 10
      EMPTY EMPTY EMPTY
      EMPTY EMPTY EMPTY
      EMPTY EMPTY EMPTY
      true 0 = true := by
  decide!

/-- C10, as the code has it: from the empty board with `PLAYER1` to move, the game
in which every move of both sides is the index returned by `bestMove` is still
in progress after six moves (board `X O O / X X O / _ _ _`) and ends with the
seventh move (cell 6) in a win of `PLAYER1` on the column 0, 3, 6, not in a
draw: `bestMove` searches for `PLAYER1` also when `PLAYER2` is to move.  The
draw is the score `minimax` gives the empty board, that is, the result against
a `PLAYER2` who minimises. -/
theorem selfPlay_ends_in_first_win :
    selfPlay 6 initial = .ok
      (position
        (mkBoard PLAYER1 PLAYER2 PLAYER2
                 PLAYER1 PLAYER1 PLAYER2
                 EMPTY EMPTY EMPTY)
        PLAYER1) ∧
    selfPlay 7 initial = .ok
      { position
        (mkBoard EMPTY EMPTY EMPTY
                 EMPTY EMPTY EMPTY
                 EMPTY EMPTY EMPTY)
        PLAYER1 with
        dialogs := [Dialog.wins PLAYER1] } ∧
    minimax
      (mkBoard EMPTY EMPTY EMPTY
               EMPTY EMPTY EMPTY
               EMPTY EMPTY EMPTY)
      true
      = .ok (0,
          mkBoard EMPTY EMPTY EMPTY
                  EMPTY EMPTY EMPTY
                  EMPTY EMPTY EMPTY) :=
  ⟨selfPlay_six, selfPlay_seven,
   minimax_of_bounds
     EMPTY EMPTY EMPTY
     EMPTY EMPTY EMPTY
     EMPTY EMPTY EMPTY
     true 0 ⟨by decide, by decide⟩ atLeast_empty_board atMost_empty_board⟩

/-- C10 fails as stated: the game of `bestMove` against itself from the empty
board ends with the dialog of a win of `PLAYER1`; no draw is reported. -/
theorem selfPlay_not_draw :
    ∃ g, selfPlay 7 initial = .ok g ∧ g.dialogs = [Dialog.wins PLAYER1] ∧
      Dialog.tie ∉ g.dialogs :=
  ⟨_, selfPlay_seven, rfl, by decide⟩

/-! ## The tie-break of `bestMove` -/

/-- C12, as the code has it: for every object with at least one `EMPTY` cell,
and whichever side is to move, the index returned by `bestMove` is the
smallest index among the `EMPTY` cells that achieve the maximal score for
`PLAYER1` (`PLAYER1` placed there, then `minimax(board, false)`): every `EMPTY`
cell scores at most as much as the returned cell, and every `EMPTY` cell with
a smaller index scores strictly less, so none of them has a score equal to
that of the returned cell. -/
theorem bestMove_smallest_index (g : TicTacToe) (h : ∃ i, g.board.get i = EMPTY) :
    ∃ r : Fin 9, bestMove g = .ok ((r.val : Int), g) ∧ g.board.get r = EMPTY ∧
      ∀ j, g.board.get j = EMPTY → ∃ sj sr,
        minimax (g.board.set j PLAYER1) false = .ok (sj, g.board.set j PLAYER1) ∧
        minimax (g.board.set r PLAYER1) false = .ok (sr, g.board.set r PLAYER1) ∧
        sj ≤ sr ∧ (j < r → sj < sr) := by
  obtain ⟨r, hr, hre, hmax, hfirst⟩ := bestMove_spec g h
  refine ⟨r, hr, hre, ?_⟩
  intro j hj
  exact ⟨_, _, minimax_eq _ _, minimax_eq _ _, hmax j hj, fun hjr => hfirst j hjr hj⟩

theorem bestMove_smallest_index_witness :
    (∃ i, afterFirstMove.board.get i = EMPTY) ∧
    ∃ r : Fin 9, bestMove afterFirstMove = .ok ((r.val : Int), afterFirstMove) ∧
      afterFirstMove.board.get r = EMPTY ∧
      ∀ j, afterFirstMove.board.get j = EMPTY → ∃ sj sr,
        minimax (afterFirstMove.board.set j PLAYER1) false
          = .ok (sj, afterFirstMove.board.set j PLAYER1) ∧
        minimax (afterFirstMove.board.set r PLAYER1) false
          = .ok (sr, afterFirstMove.board.set r PLAYER1) ∧
        sj ≤ sr ∧ (j < r → sj < sr) :=
  ⟨⟨1, rfl⟩, bestMove_smallest_index afterFirstMove ⟨1, rfl⟩⟩

/-! ## When `bestMove` has no move -/

/-- C13, as the code has it: `bestMove` returns `-1` exactly when no cell is
`EMPTY`; on every other board, also one on which a side already owns a line,
it returns an index in `0..8` whose cell is `EMPTY`.  Lines are not looked at
before the loop. -/
theorem bestMove_no_move_iff_full (g : TicTacToe) :
    ((∀ i, g.board.get i ≠ EMPTY) ∧ bestMove g = .ok (-1, g)) ∨
    (∃ r : Fin 9, g.board.get r = EMPTY ∧ bestMove g = .ok ((r.val : Int), g)) := by
  by_cases h : ∃ i, g.board.get i = EMPTY
  · obtain ⟨r, hr, hre, _, _⟩ := bestMove_spec g h
    exact Or.inr ⟨r, hre, hr⟩
  · push_neg at h
    exact Or.inl ⟨h, bestMove_full g h⟩

theorem bestCert_topRowOwned :
    bestCert PLAYER1 PLAYER1 PLAYER1
             PLAYER2 PLAYER2 EMPTY
             EMPTY EMPTY EMPTY
      5 1 = true := by
  decide!

/-- C13 fails as stated: on the board `X X X / O O _ / _ _ _`, which is terminal
(`PLAYER1` owns the top row), `bestMove` does not return `-1` but cell 5. -/
theorem bestMove_on_terminal_board :
    checkWin topRowOwned.board PLAYER1 = true ∧
    specOutcome topRowOwned.board = Outcome.FirstWins ∧
    bestMove topRowOwned = .ok (((5 : Fin 9).val : Int), topRowOwned) :=
  ⟨by decide, by decide,
   bestCert_sound topRowOwned
     PLAYER1 PLAYER1 PLAYER1
     PLAYER2 PLAYER2 EMPTY
     EMPTY EMPTY EMPTY
     rfl 5 1 bestCert_topRowOwned⟩

/-! ## The sentinels stay inside `minimax` -/

/-- C19: for every board and either value of the flag, `minimax` returns `-1`, `0`
or `1`, never the sentinels `INT_MIN` and `INT_MAX` it starts its loop with: a
board that is not terminal has an `EMPTY` cell to evaluate.  Hence in
`bestMove` the score of every cell is strictly greater than the initial
`INT_MIN`. -/
theorem minimax_range (board : Board) (isMaximizing : Bool) :
    (∃ score, minimax board isMaximizing = .ok (score, board) ∧
      (score = -1 ∨ score = 0 ∨ score = 1) ∧ score ≠ INT_MIN ∧ score ≠ INT_MAX) ∧
    (checkWin board PLAYER1 = true ∨ checkWin board PLAYER2 = true ∨
      checkTie board = true ∨ ∃ i, board.get i = EMPTY) ∧
    (∀ i, ∃ score, minimax (board.set i PLAYER1) false = .ok (score, board.set i PLAYER1) ∧
      INT_MIN < score) := by
  refine ⟨⟨_, minimax_eq board isMaximizing, ?_, ?_, ?_⟩, ?_, ?_⟩
  · have h := scoreFuel_range 10 board isMaximizing (by have := emptyCount_le board; omega)
    omega
  · have h := scoreFuel_range 10 board isMaximizing (by have := emptyCount_le board; omega)
    simp only [INT_MIN]
    omega
  · have h := scoreFuel_range 10 board isMaximizing (by have := emptyCount_le board; omega)
    simp only [INT_MAX]
    omega
  · cases h3 : checkTie board
    · exact Or.inr (Or.inr (Or.inr (exists_empty_of_not_tie board h3)))
    · exact Or.inr (Or.inr (Or.inl rfl))
  · intro i
    refine ⟨_, minimax_eq _ _, ?_⟩
    have h := cellScore_range board i
    unfold cellScore at h
    simp only [INT_MIN]
    omega

/-! ## `minimax` computes the reference value -/

theorem maxOver_ge (f : Fin 9 → Int) : ∀ (l : List (Fin 9)) (i : Fin 9), i ∈ l →
    f i ≤ maxOver f l
  | [], _, h => absurd h (List.not_mem_nil _)
  | [a], i, h => by
    rw [List.mem_singleton] at h
    rw [h]
    exact le_refl _
  | a :: b :: rest, i, h => by
    rcases List.mem_cons.1 h with h | h
    · rw [h]
      exact le_max_left _ _
    · exact le_trans (maxOver_ge f (b :: rest) i h) (le_max_right _ _)

theorem maxOver_mem (f : Fin 9 → Int) : ∀ l : List (Fin 9), l ≠ [] →
    ∃ i ∈ l, maxOver f l = f i
  | [], h => absurd rfl h
  | [a], _ => ⟨a, List.mem_singleton.2 rfl, rfl⟩
  | a :: b :: rest, _ => by
    obtain ⟨i, hi, he⟩ := maxOver_mem f (b :: rest) (List.cons_ne_nil _ _)
    by_cases hle : maxOver f (b :: rest) ≤ f a
    · exact ⟨a, List.mem_cons_self _ _, max_eq_left hle⟩
    · refine ⟨i, List.mem_cons_of_mem _ hi, ?_⟩
      rw [maxOver, max_eq_right (le_of_not_le hle), he]

theorem minOver_le (f : Fin 9 → Int) : ∀ (l : List (Fin 9)) (i : Fin 9), i ∈ l →
    minOver f l ≤ f i
  | [], _, h => absurd h (List.not_mem_nil _)
  | [a], i, h => by
    rw [List.mem_singleton] at h
    rw [h]
    exact le_refl _
  | a :: b :: rest, i, h => by
    rcases List.mem_cons.1 h with h | h
    · rw [h]
      exact min_le_left _ _
    · exact le_trans (min_le_right _ _) (minOver_le f (b :: rest) i h)

theorem minOver_mem (f : Fin 9 → Int) : ∀ l : List (Fin 9), l ≠ [] →
    ∃ i ∈ l, minOver f l = f i
  | [], h => absurd rfl h
  | [a], _ => ⟨a, List.mem_singleton.2 rfl, rfl⟩
  | a :: b :: rest, _ => by
    obtain ⟨i, hi, he⟩ := minOver_mem f (b :: rest) (List.cons_ne_nil _ _)
    by_cases hle : f a ≤ minOver f (b :: rest)
    · exact ⟨a, List.mem_cons_self _ _, min_eq_left hle⟩
    · refine ⟨i, List.mem_cons_of_mem _ hi, ?_⟩
      rw [minOver, min_eq_right (le_of_not_le hle), he]

theorem maxOver_congr (f g : Fin 9 → Int) : ∀ l : List (Fin 9), (∀ i ∈ l, f i = g i) →
    maxOver f l = maxOver g l
  | [], _ => rfl
  | [a], h => h a (List.mem_singleton.2 rfl)
  | a :: b :: rest, h => by
    rw [maxOver, maxOver, h a (List.mem_cons_self _ _),
      maxOver_congr f g (b :: rest) (fun i hi => h i (List.mem_cons_of_mem _ hi))]

theorem minOver_congr (f g : Fin 9 → Int) : ∀ l : List (Fin 9), (∀ i ∈ l, f i = g i) →
    minOver f l = minOver g l
  | [], _ => rfl
  | [a], h => h a (List.mem_singleton.2 rfl)
  | a :: b :: rest, h => by
    rw [minOver, minOver, h a (List.mem_cons_self _ _),
      minOver_congr f g (b :: rest) (fun i hi => h i (List.mem_cons_of_mem _ hi))]

theorem mem_emptyCells (board : Board) (i : Fin 9) :
    i ∈ emptyCells board ↔ board.get i = EMPTY := by
  unfold emptyCells
  rw [List.mem_filter]
  simp [mem_cells]

/-- Placing a mark on an `EMPTY` cell lowers the number of `EMPTY` cells by one. -/
theorem emptyCount_set (board : Board) (i : Fin 9) (p : Mark) (h : board.get i = EMPTY)
    (hp : p ≠ EMPTY) : emptyCount (board.set i p) + 1 = emptyCount board := by
  unfold emptyCount
  have hmem : i ∈ Finset.univ.filter fun j : Fin 9 => board.get j = EMPTY := by
    simp [h]
  have heq : (Finset.univ.filter fun j : Fin 9 => (board.set i p).get j = EMPTY)
      = (Finset.univ.filter fun j : Fin 9 => board.get j = EMPTY).erase i := by
    ext j
    simp only [Finset.mem_filter, Finset.mem_univ, true_and, Finset.mem_erase]
    by_cases hij : i = j
    · subst hij
      simp [Mathlib.Vector.get_set_same, hp]
    · rw [Mathlib.Vector.get_set_of_ne hij]
      constructor
      · intro hj
        exact ⟨fun e => hij e.symm, hj⟩
      · intro hj
        exact hj.2
  rw [heq, Finset.card_erase_of_mem hmem]
  have hpos : 0 < (Finset.univ.filter fun j : Fin 9 => board.get j = EMPTY).card :=
    Finset.card_pos.2 ⟨i, hmem⟩
  omega

theorem full_of_emptyCount_zero (board : Board) (h : emptyCount board = 0) :
    ∀ i, board.get i ≠ EMPTY := by
  intro i hi
  unfold emptyCount at h
  rw [Finset.card_eq_zero] at h
  have hmem : i ∈ Finset.univ.filter fun j : Fin 9 => board.get j = EMPTY := by
    simp [hi]
  rw [h] at hmem
  exact absurd hmem (Finset.not_mem_empty i)

theorem foldBest_max_eq (empty : Fin 9 → Bool) (child : Fin 9 → Int) (l : List (Fin 9))
    (hne : l.filter (fun i => empty i) ≠ [])
    (hlow : ∀ i ∈ l, empty i = true → INT_MIN ≤ child i) :
    foldBest true empty child l INT_MIN = maxOver child (l.filter (fun i => empty i)) := by
  obtain ⟨k, hk, hke⟩ := maxOver_mem child _ hne
  rw [List.mem_filter] at hk
  apply le_antisymm
  · rw [foldBest_max_le]
    refine ⟨?_, ?_⟩
    · rw [hke]
      exact hlow k hk.1 hk.2
    · intro i hi he
      exact maxOver_ge child _ i (List.mem_filter.2 ⟨hi, he⟩)
  · rw [le_foldBest_max]
    exact Or.inr ⟨k, hk.1, hk.2, le_of_eq hke⟩

theorem foldBest_min_eq (empty : Fin 9 → Bool) (child : Fin 9 → Int) (l : List (Fin 9))
    (hne : l.filter (fun i => empty i) ≠ [])
    (hhigh : ∀ i ∈ l, empty i = true → child i ≤ INT_MAX) :
    foldBest false empty child l INT_MAX = minOver child (l.filter (fun i => empty i)) := by
  obtain ⟨k, hk, hke⟩ := minOver_mem child _ hne
  rw [List.mem_filter] at hk
  apply le_antisymm
  · rw [foldBest_min_le]
    exact Or.inr ⟨k, hk.1, hk.2, le_of_eq hke.symm⟩
  · rw [le_foldBest_min]
    refine ⟨?_, ?_⟩
    · rw [hke]
      exact hhigh k hk.1 hk.2
    · intro i hi he
      exact minOver_le child _ i (List.mem_filter.2 ⟨hi, he⟩)

theorem emptyCells_ne_nil (board : Board) (h : ¬ ∀ i, board.get i ≠ EMPTY) :
    emptyCells board ≠ [] := by
  push_neg at h
  obtain ⟨i, hi⟩ := h
  intro hnil
  have hmem := (mem_emptyCells board i).2 hi
  rw [hnil] at hmem
  exact absurd hmem (List.not_mem_nil _)

theorem scoreFuel_eq_valueAt (n : Nat) : ∀ (board : Board) (m : Bool) (fuel : Nat),
    emptyCount board = n → n < fuel → scoreFuel fuel board m = valueAt n board m := by
  induction n with
  | zero =>
    intro board m fuel hn hf
    cases fuel with
    | zero => omega
    | succ f =>
      have ht : checkTie board = true :=
        (checkTie_eq_true_iff board).2 (full_of_emptyCount_zero board hn)
      unfold scoreFuel valueAt
      simp only [checkWin_iff, ht, if_true]
  | succ n ih =>
    intro board m fuel hn hf
    cases fuel with
    | zero => omega
    | succ f =>
      unfold scoreFuel valueAt
      simp only [checkWin_iff, checkTie_eq_true_iff]
      by_cases h1 : ownsLine board PLAYER1
      · simp only [h1, if_true]
      by_cases h2 : ownsLine board PLAYER2
      · simp only [h1, h2, if_true, if_false]
      by_cases h3 : ∀ i, board.get i ≠ EMPTY
      · rw [if_neg h1, if_neg h2, if_pos h3, if_neg h1, if_neg h2, if_pos h3]
      rw [if_neg h1, if_neg h2, if_neg h3, if_neg h1, if_neg h2, if_neg h3]
      have hchild : ∀ i ∈ emptyCells board, ∀ p, p ≠ EMPTY → ∀ m1,
          scoreFuel f (board.set i p) m1 = valueAt n (board.set i p) m1 := by
        intro i hi p hp m1
        have hc := emptyCount_set board i p ((mem_emptyCells board i).1 hi) hp
        exact ih (board.set i p) m1 f (by omega) (by omega)
      have hrange : ∀ i, ∀ p, ∀ m1, -1 ≤ scoreFuel f (board.set i p) m1 ∧
          scoreFuel f (board.set i p) m1 ≤ 1 ∨ board.get i ≠ EMPTY ∨ p = EMPTY := by
        intro i p m1
        by_cases hi : board.get i = EMPTY
        · by_cases hp : p = EMPTY
          · exact Or.inr (Or.inr hp)
          · have hc := emptyCount_set board i p hi hp
            exact Or.inl (scoreFuel_range f (board.set i p) m1 (by omega))
        · exact Or.inr (Or.inl hi)
      cases m with
      | true =>
        simp only [if_true, Bool.not_true]
        rw [foldBest_max_eq _ _ _ (emptyCells_ne_nil board h3)]
        · exact maxOver_congr _ _ _ (fun i hi => hchild i hi PLAYER1 (by decide) false)
        · intro i _ he
          rcases hrange i PLAYER1 false with h | h | h
          · simp only [INT_MIN]
            omega
          · exact absurd (by simpa using he) h
          · exact absurd h (by decide)
      | false =>
        simp only [Bool.false_eq_true, if_false, Bool.not_false]
        rw [foldBest_min_eq _ _ _ (emptyCells_ne_nil board h3)]
        · exact minOver_congr _ _ _ (fun i hi => hchild i hi PLAYER2 (by decide) true)
        · intro i _ he
          rcases hrange i PLAYER2 true with h | h | h
          · simp only [INT_MAX]
            omega
          · exact absurd (by simpa using he) h
          · exact absurd h (by decide)

theorem scoreFuel_eq_value (fuel : Nat) (board : Board) (m : Bool)
    (h : emptyCount board < fuel) : scoreFuel fuel board m = value board m :=
  scoreFuel_eq_valueAt (emptyCount board) board m fuel rfl h

/-- The score `minimax` returns is the reference value. -/
theorem minimax_eq_value (board : Board) (m : Bool) :
    minimax board m = .ok (value board m, board) := by
  rw [minimax_eq, scoreFuel_eq_value 10 board m (by have := emptyCount_le board; omega)]

/-- Fuel beyond the number of `EMPTY` cells does not change what `minimaxFuel` returns. -/
theorem minimaxFuel_eq_minimax (fuel : Nat) (board : Board) (m : Bool)
    (h : emptyCount board < fuel) : minimaxFuel fuel board m = minimax board m := by
  rw [minimaxFuel_eq fuel board m h, minimax_eq, scoreFuel_eq_value fuel board m h,
    scoreFuel_eq_value 10 board m (by have := emptyCount_le board; omega)]

theorem cellScore_eq_value (board : Board) (i : Fin 9) :
    cellScore board i = value (board.set i PLAYER1) false :=
  scoreFuel_eq_value 10 _ _ (by have := emptyCount_le (board.set i PLAYER1); omega)

/-- The reference value satisfies the equation of backward induction. -/
theorem value_eq (board : Board) (firstToMove : Bool) :
    value board firstToMove =
      if ownsLine board PLAYER1 then 1
      else if ownsLine board PLAYER2 then -1
      else if ∀ i, board.get i ≠ EMPTY then 0
      else if firstToMove = true then
        maxOver (fun i => value (board.set i PLAYER1) false) (emptyCells board)
      else
        minOver (fun i => value (board.set i PLAYER2) true) (emptyCells board) := by
  unfold value
  cases hn : emptyCount board with
  | zero =>
    have hfull := full_of_emptyCount_zero board hn
    unfold valueAt
    simp only [hfull, ne_eq, not_false_eq_true, implies_true, if_true]
  | succ n =>
    rw [valueAt]
    by_cases h1 : ownsLine board PLAYER1
    · simp only [h1, if_true]
    by_cases h2 : ownsLine board PLAYER2
    · simp only [h1, h2, if_true, if_false]
    by_cases h3 : ∀ i, board.get i ≠ EMPTY
    · rw [if_neg h1, if_neg h2, if_pos h3, if_neg h1, if_neg h2, if_pos h3]
    rw [if_neg h1, if_neg h2, if_neg h3, if_neg h1, if_neg h2, if_neg h3]
    have hchild : ∀ i ∈ emptyCells board, ∀ p, p ≠ EMPTY →
        emptyCount (board.set i p) = n := by
      intro i hi p hp
      have hc := emptyCount_set board i p ((mem_emptyCells board i).1 hi) hp
      omega
    cases firstToMove with
    | true =>
      simp only [if_true]
      apply maxOver_congr
      intro i hi
      simp only [hchild i hi PLAYER1 (by decide)]
    | false =>
      simp only [Bool.false_eq_true, if_false]
      apply minOver_congr
      intro i hi
      simp only [hchild i hi PLAYER2 (by decide)]

/-- C16: for every board and either side to move, `minimax` returns the reference
value of backward induction (and the board as it was), where the reference
value is `1` if First owns a line, else `-1` if Second owns a line, else `0` if
no cell is `EMPTY`, and otherwise the maximum (First to move) or the minimum
(Second to move) over the `EMPTY` cells of the value of the board with the
mover's mark placed there and the other side to move. -/
theorem minimax_is_reference_value (board : Board) (firstToMove : Bool) :
    minimax board firstToMove = .ok (value board firstToMove, board) ∧
    value board firstToMove =
      (if ownsLine board PLAYER1 then 1
       else if ownsLine board PLAYER2 then -1
       else if ∀ i, board.get i ≠ EMPTY then 0
       else if firstToMove = true then
         maxOver (fun i => value (board.set i PLAYER1) false) (emptyCells board)
       else
         minOver (fun i => value (board.set i PLAYER2) true) (emptyCells board)) :=
  ⟨minimax_eq_value board firstToMove, value_eq board firstToMove⟩

/-! ## Win before draw -/

/-- C17: the win is checked before the draw.  On every board without an `EMPTY`
cell on which a side owns a line, `minimax` returns `1` if `PLAYER1` owns a
line and `-1` otherwise, never `0`; and a move that fills the last `EMPTY`
cell and completes a line for the mover is reported by the dialog of the
mover's win, not by the tie dialog. -/
theorem win_checked_before_tie (board : Board) (isMaximizing : Bool)
    (hfull : ∀ i, board.get i ≠ EMPTY)
    (hline : ownsLine board PLAYER1 ∨ ownsLine board PLAYER2)
    (g : TicTacToe) (i : Fin 9)
    (hfill : ∀ j, (g.board.set i g.currentPlayer).get j ≠ EMPTY)
    (hwin : ownsLine (g.board.set i g.currentPlayer) g.currentPlayer) :
    (∃ score, minimax board isMaximizing = .ok (score, board) ∧
      (score = 1 ∨ score = -1) ∧
      score = if ownsLine board PLAYER1 then 1 else -1) ∧
    checkTie board = true ∧
    checkTie (g.board.set i g.currentPlayer) = true ∧
    ∃ g1, makeMove g (i.val : Int) = .ok g1 ∧
      g1.dialogs = g.dialogs ++ [Dialog.wins g.currentPlayer] ∧
      Dialog.tie ∉ [Dialog.wins g.currentPlayer] := by
  refine ⟨⟨_, minimax_eq_value board isMaximizing, ?_, ?_⟩,
    (checkTie_eq_true_iff board).2 hfull, (checkTie_eq_true_iff _).2 hfill,
    _, makeMove_win g i ((checkWin_iff _ _).2 hwin), ?_, ?_⟩
  · rw [value_eq]
    by_cases h1 : ownsLine board PLAYER1
    · left
      rw [if_pos h1]
    · right
      rw [if_neg h1, if_pos (hline.resolve_left h1)]
  · rw [value_eq]
    by_cases h1 : ownsLine board PLAYER1
    · rw [if_pos h1, if_pos h1]
    · rw [if_neg h1, if_pos (hline.resolve_left h1), if_neg h1]
  · rw [gameOver, resetGame_dialogs]
  · simp

theorem win_checked_before_tie_witness :
    (∀ i, fullWithTopRow.get i ≠ EMPTY) ∧
    (ownsLine fullWithTopRow PLAYER1 ∨ ownsLine fullWithTopRow PLAYER2) ∧
    (∀ j, (lastCellWins.board.set 8 lastCellWins.currentPlayer).get j ≠ EMPTY) ∧
    ownsLine (lastCellWins.board.set 8 lastCellWins.currentPlayer)
      lastCellWins.currentPlayer ∧
    (∃ score, minimax fullWithTopRow true = .ok (score, fullWithTopRow) ∧
      (score = 1 ∨ score = -1) ∧
      score = if ownsLine fullWithTopRow PLAYER1 then 1 else -1) ∧
    checkTie fullWithTopRow = true ∧
    checkTie (lastCellWins.board.set 8 lastCellWins.currentPlayer) = true ∧
    ∃ g1, makeMove lastCellWins (((8 : Fin 9).val : Nat) : Int) = .ok g1 ∧
      g1.dialogs = lastCellWins.dialogs ++ [Dialog.wins lastCellWins.currentPlayer] ∧
      Dialog.tie ∉ [Dialog.wins lastCellWins.currentPlayer] :=
  ⟨by decide, by decide, by decide, by decide,
   win_checked_before_tie fullWithTopRow true (by decide) (by decide)
     lastCellWins 8 (by decide) (by decide)⟩

/-! ## Termination of the search -/

/-- C18: for every board and either value of the flag, `minimax` terminates: it
returns a score and the board, also on a board without an `EMPTY` cell.  Every
recursive call is made on a board with exactly one `EMPTY` cell fewer, the
number of `EMPTY` cells is at most 9, and a recursion depth of one more than
that number is never exceeded: with that bound, and with any greater one,
`minimaxFuel` returns what `minimax` returns.  `bestMove` returns on every
object. -/
theorem minimax_terminates (board : Board) (isMaximizing : Bool) (g : TicTacToe) :
    (∃ score, minimax board isMaximizing = .ok (score, board)) ∧
    emptyCount board ≤ 9 ∧
    minimaxFuel (emptyCount board + 1) board isMaximizing = minimax board isMaximizing ∧
    (∀ fuel, fuel ≤ emptyCount board ∨
      minimaxFuel fuel board isMaximizing = minimax board isMaximizing) ∧
    (∀ (i : Fin 9) (p : Mark), board.get i ≠ EMPTY ∨ p = EMPTY ∨
      emptyCount (board.set i p) + 1 = emptyCount board) ∧
    (∃ move, bestMove g = .ok (move, g)) := by
  refine ⟨⟨_, minimax_eq board isMaximizing⟩, emptyCount_le board,
    minimaxFuel_eq_minimax _ board isMaximizing (Nat.lt_succ_self _), ?_, ?_,
    ⟨_, bestMove_eq g⟩⟩
  · intro fuel
    by_cases hf : fuel ≤ emptyCount board
    · exact Or.inl hf
    · exact Or.inr (minimaxFuel_eq_minimax fuel board isMaximizing (by omega))
  · intro i p
    by_cases hi : board.get i = EMPTY
    · by_cases hp : p = EMPTY
      · exact Or.inr (Or.inl hp)
      · exact Or.inr (Or.inr (emptyCount_set board i p hi hp))
    · exact Or.inl hi

/-! ## Two scenarios of the specification -/

theorem bestCert_secondToBlock :
    bestCert PLAYER1 PLAYER1 EMPTY
             PLAYER2 PLAYER2 EMPTY
             EMPTY EMPTY EMPTY
      2 1 = true := by
  decide!

theorem bestMove_secondToBlock :
    bestMove secondToBlock = .ok (((2 : Fin 9).val : Int), secondToBlock) :=
  bestCert_sound secondToBlock
    PLAYER1 PLAYER1 EMPTY
    PLAYER2 PLAYER2 EMPTY
    EMPTY EMPTY EMPTY
    rfl 2 1 bestCert_secondToBlock

theorem ok_fst_ne (g : TicTacToe) (a b : Int) (r : Except Fault (Int × TicTacToe))
    (h : r = .ok (a, g)) (hab : a ≠ b) : r ≠ .ok (b, g) := by
  intro hb
  rw [h] at hb
  injection hb with hb
  injection hb with hb
  exact hab hb

/-- C14, as the code has it: on the board `X X _ / O O _ / _ _ _` with `PLAYER2`
to move, `bestMove` returns index 2, the cell that would complete the top row
of `PLAYER1`, for whom it always searches; when that move is applied for
`PLAYER2` the game is in progress: no dialog is shown, the board is
`X X O / O O _ / _ _ _`, on which neither side owns a line, and `PLAYER1` is
to move. -/
theorem bestMove_second_scenario :
    bestMove secondToBlock = .ok (((2 : Fin 9).val : Int), secondToBlock) ∧
    makeMove secondToBlock ((2 : Fin 9).val : Int) = .ok
      (position
        (mkBoard PLAYER1 PLAYER1 PLAYER2
                 PLAYER2 PLAYER2 EMPTY
                 EMPTY EMPTY EMPTY)
        PLAYER1) ∧
    specOutcome
      (mkBoard PLAYER1 PLAYER1 PLAYER2
               PLAYER2 PLAYER2 EMPTY
               EMPTY EMPTY EMPTY)
      = Outcome.InProgress :=
  ⟨bestMove_secondToBlock, rfl, by decide⟩

/-- C14 fails as stated: on the board `X X _ / O O _ / _ _ _` with `PLAYER2` to
move, `bestMove` returns index 2, not index 5; and index 5 would not leave the
game in progress, since it completes the row 3, 4, 5 of `PLAYER2`, whose win
is reported. -/
theorem bestMove_not_five :
    bestMove secondToBlock ≠ .ok (5, secondToBlock) ∧
    specOutcome (secondToBlock.board.set 5 PLAYER2) = Outcome.SecondWins ∧
    makeMove secondToBlock 5 = .ok
      { position
        (mkBoard EMPTY EMPTY EMPTY
                 EMPTY EMPTY EMPTY
                 EMPTY EMPTY EMPTY)
        PLAYER1 with
        dialogs := [Dialog.wins PLAYER2] } :=
  ⟨ok_fst_ne secondToBlock _ 5 _ bestMove_secondToBlock (by decide), by decide, rfl⟩

/-- C15, as the code has it: on the board `X _ _ / _ O _ / _ _ X` with `PLAYER1`
to move, cell 6 is `EMPTY` (the occupied cells are 0, 4 and 8), so the click on
index 6 is accepted and leaves the game in progress; the click on the occupied
index 8 returns with the object unchanged; and the click on index 2 is accepted,
places the mark of `PLAYER1` and leaves the game in progress with `PLAYER2` to
move. -/
theorem clicks_on_cornersAndCentre :
    cornersAndCentre.board.get 6 = EMPTY ∧
    handleButtonClick cornersAndCentre 6 = .ok
      (position
        (mkBoard PLAYER1 EMPTY EMPTY
                 EMPTY PLAYER2 EMPTY
                 PLAYER1 EMPTY PLAYER1)
        PLAYER2) ∧
    handleButtonClick cornersAndCentre 8 = .ok cornersAndCentre ∧
    handleButtonClick cornersAndCentre 2 = .ok
      (position
        (mkBoard PLAYER1 EMPTY PLAYER1
                 EMPTY PLAYER2 EMPTY
                 EMPTY EMPTY PLAYER1)
        PLAYER2) ∧
    specOutcome
      (mkBoard PLAYER1 EMPTY PLAYER1
               EMPTY PLAYER2 EMPTY
               EMPTY EMPTY PLAYER1)
      = Outcome.InProgress ∧
    specOutcome
      (mkBoard PLAYER1 EMPTY EMPTY
               EMPTY PLAYER2 EMPTY
               PLAYER1 EMPTY PLAYER1)
      = Outcome.InProgress :=
  ⟨rfl, rfl, rfl, rfl, by decide, by decide⟩

/-- C15 fails as stated: on the board `X _ _ / _ O _ / _ _ X` cell 6 is not
occupied, and the click on index 6 is not rejected: it changes the object. -/
theorem click_six_accepted :
    cornersAndCentre.board.get 6 = EMPTY ∧
    handleButtonClick cornersAndCentre 6 ≠ .ok cornersAndCentre := by
  refine ⟨rfl, ?_⟩
  have h : handleButtonClick cornersAndCentre 6 = .ok
      (position
        (mkBoard PLAYER1 EMPTY EMPTY
                 EMPTY PLAYER2 EMPTY
                 PLAYER1 EMPTY PLAYER1)
        PLAYER2) := rfl
  rw [h]
  intro hc
  injection hc with hc
  have hp := congrArg TicTacToe.currentPlayer hc
  exact absurd hp (by decide)

/-! ## The computer never loses -/

theorem not_ownsLine_of_checkWin (board : Board) (p : Mark) (h : checkWin board p = false) :
    ¬ ownsLine board p := by
  intro ho
  have := (checkWin_iff board p).2 ho
  rw [h] at this
  exact Bool.noConfusion this

theorem checkWin_set_other_false (board : Board) (i : Fin 9) (p q : Mark) (hqp : q ≠ p)
    (h : checkWin board q = false) : checkWin (board.set i p) q = false := by
  cases hc : checkWin (board.set i p) q
  · rfl
  · have := checkWin_set_other board i p q hqp hc
    rw [h] at this
    exact Bool.noConfusion this

theorem value_max_attained (board : Board) (h1 : checkWin board PLAYER1 = false)
    (h2 : checkWin board PLAYER2 = false) (i0 : Fin 9) (hi0 : board.get i0 = EMPTY) :
    ∃ k, board.get k = EMPTY ∧ value board true = value (board.set k PLAYER1) false := by
  have h3 : ¬ ∀ i, board.get i ≠ EMPTY := fun h => h i0 hi0
  obtain ⟨k, hk, hke⟩ := maxOver_mem (fun i => value (board.set i PLAYER1) false)
    (emptyCells board) (emptyCells_ne_nil board h3)
  refine ⟨k, (mem_emptyCells board k).1 hk, ?_⟩
  rw [value_eq, if_neg (not_ownsLine_of_checkWin _ _ h1),
    if_neg (not_ownsLine_of_checkWin _ _ h2), if_neg h3, if_pos rfl]
  exact hke

theorem value_min_le (board : Board) (h1 : checkWin board PLAYER1 = false)
    (h2 : checkWin board PLAYER2 = false) (i : Fin 9) (hi : board.get i = EMPTY) :
    value board false ≤ value (board.set i PLAYER2) true := by
  have h3 : ¬ ∀ j, board.get j ≠ EMPTY := fun h => h i hi
  rw [value_eq, if_neg (not_ownsLine_of_checkWin _ _ h1),
    if_neg (not_ownsLine_of_checkWin _ _ h2), if_neg h3, if_neg (by decide)]
  exact minOver_le (fun j => value (board.set j PLAYER2) true) (emptyCells board) i
    ((mem_emptyCells board i).2 hi)

theorem value_replicate : 0 ≤ value (Mathlib.Vector.replicate 9 EMPTY : Board) true :=
  le_of_le_of_eq
    (atLeast_sound 10 EMPTY EMPTY EMPTY EMPTY EMPTY EMPTY EMPTY EMPTY EMPTY true 0
      (by decide) atLeast_empty_board)
    (scoreFuel_eq_value 10 _ true (lt_of_le_of_lt (emptyCount_le _) (by decide)))

theorem searchInvariant_fresh (g : TicTacToe) (hd : Dialog.wins PLAYER2 ∉ g.dialogs) :
    searchInvariant (resetGame g) := by
  unfold searchInvariant
  rw [resetGame_board, resetGame_currentPlayer, resetGame_dialogs]
  exact ⟨rfl, rfl, hd, Or.inl ⟨rfl, value_replicate⟩⟩

theorem searchInvariant_gameOver (g : TicTacToe) (message : Dialog)
    (hd : Dialog.wins PLAYER2 ∉ g.dialogs) (hm : message ≠ Dialog.wins PLAYER2) :
    searchInvariant (gameOver g message) := by
  unfold gameOver
  apply searchInvariant_fresh
  simp only [List.mem_append, List.mem_singleton, not_or]
  exact ⟨hd, fun h => hm h.symm⟩

/-- Whatever `EMPTY` cell `PLAYER2` takes in a game against the computer, the
move completes no line for `PLAYER2`. -/
theorem second_reply_no_line (g : TicTacToe) (hinv : searchInvariant g)
    (hc : g.currentPlayer = PLAYER2) (i : Fin 9) (hi : g.board.get i = EMPTY) :
    checkWin (g.board.set i PLAYER2) PLAYER2 = false ∧
    0 ≤ value (g.board.set i PLAYER2) true := by
  obtain ⟨h1, h2, _, hv⟩ := hinv
  have hv2 : 0 ≤ value g.board false := by
    rcases hv with ⟨hp, _⟩ | ⟨_, hv⟩
    · rw [hc] at hp
      exact absurd hp (by decide)
    · exact hv
  have hchild : 0 ≤ value (g.board.set i PLAYER2) true :=
    le_trans hv2 (value_min_le g.board h1 h2 i hi)
  refine ⟨?_, hchild⟩
  cases hw : checkWin (g.board.set i PLAYER2) PLAYER2
  · rfl
  · exfalso
    have hx := checkWin_set_other_false g.board i PLAYER2 PLAYER1 (by decide) h1
    rw [value_eq, if_neg (not_ownsLine_of_checkWin _ _ hx),
      if_pos ((checkWin_iff _ _).1 hw)] at hchild
    omega

theorem searchInvariant_second (g g1 : TicTacToe) (i : Fin 9) (hinv : searchInvariant g)
    (hc : g.currentPlayer = PLAYER2) (hi : g.board.get i = EMPTY)
    (hm : makeMove g (i.val : Int) = .ok g1) : searchInvariant g1 := by
  obtain ⟨hno, hval⟩ := second_reply_no_line g hinv hc i hi
  obtain ⟨h1, h2, hd, _⟩ := hinv
  have hw : checkWin (g.board.set i g.currentPlayer) g.currentPlayer = false := by
    rw [hc]
    exact hno
  cases ht : checkTie (g.board.set i g.currentPlayer)
  · obtain ⟨g2, hg2, hb2, hc2, hd2, _⟩ := makeMove_continue g i hw ht
    rw [hm] at hg2
    cases hg2
    unfold searchInvariant
    rw [hb2, hc2, hd2, hc]
    exact ⟨checkWin_set_other_false g.board i PLAYER2 PLAYER1 (by decide) h1, hno, hd,
      Or.inl ⟨rfl, hval⟩⟩
  · rw [makeMove_tie g i hw ht] at hm
    cases hm
    exact searchInvariant_gameOver _ _ hd (by decide)

theorem makeAIMove_full (g : TicTacToe) (h : ∀ i, g.board.get i ≠ EMPTY) :
    makeAIMove g = .ok g := by
  unfold makeAIMove
  rw [bestMove_full g h]
  simp

theorem searchInvariant_first (g g1 : TicTacToe) (hinv : searchInvariant g)
    (hc : g.currentPlayer = PLAYER1) (hm : makeAIMove g = .ok g1) : searchInvariant g1 := by
  by_cases hfull : ∀ i, g.board.get i ≠ EMPTY
  · rw [makeAIMove_full g hfull] at hm
    cases hm
    exact hinv
  · push_neg at hfull
    obtain ⟨i0, hi0⟩ := hfull
    obtain ⟨r, hr, hre, hmax, _⟩ := bestMove_spec g ⟨i0, hi0⟩
    rw [makeAIMove_of_bestMove g r hr] at hm
    obtain ⟨h1, h2, hd, hv⟩ := hinv
    have hv1 : 0 ≤ value g.board true := by
      rcases hv with ⟨_, hv⟩ | ⟨hp, _⟩
      · exact hv
      · rw [hc] at hp
        exact absurd hp (by decide)
    cases hw : checkWin (g.board.set r g.currentPlayer) g.currentPlayer
    · cases ht : checkTie (g.board.set r g.currentPlayer)
      · obtain ⟨g2, hg2, hb2, hc2, hd2, _⟩ := makeMove_continue g r hw ht
        rw [hm] at hg2
        cases hg2
        obtain ⟨k, hk, hkv⟩ := value_max_attained g.board h1 h2 i0 hi0
        have hle := hmax k hk
        rw [cellScore_eq_value, cellScore_eq_value, ← hkv] at hle
        unfold searchInvariant
        rw [hb2, hc2, hd2, hc]
        rw [hc] at hw
        exact ⟨hw, checkWin_set_other_false g.board r PLAYER1 PLAYER2 (by decide) h2, hd,
          Or.inr ⟨rfl, le_trans hv1 hle⟩⟩
      · rw [makeMove_tie g r hw ht] at hm
        cases hm
        exact searchInvariant_gameOver _ _ hd (by decide)
    · rw [makeMove_win g r hw] at hm
      cases hm
      apply searchInvariant_gameOver _ _ hd
      rw [hc]
      decide

theorem searchInvariant_of_aiPlay (g : TicTacToe) (h : AIPlay g) : searchInvariant g := by
  induction h with
  | start g0 hd => exact searchInvariant_fresh g0 hd
  | first g g1 _ hc hm ih => exact searchInvariant_first g g1 ih hc hm
  | second g g1 i _ hc hi hm ih => exact searchInvariant_second g g1 i ih hc hi hm

theorem makeMove_returns (g : TicTacToe) (i : Fin 9) :
    ∃ g1, makeMove g (i.val : Int) = .ok g1 := by
  cases hw : checkWin (g.board.set i g.currentPlayer) g.currentPlayer
  · cases ht : checkTie (g.board.set i g.currentPlayer)
    · obtain ⟨g1, hg1, _⟩ := makeMove_continue g i hw ht
      exact ⟨g1, hg1⟩
    · exact ⟨_, makeMove_tie g i hw ht⟩
  · exact ⟨_, makeMove_win g i hw⟩

/-- C11: in every game that starts from the empty board in which every move of
`PLAYER1` is the index returned by `bestMove` and the replies of `PLAYER2` are
any moves on `EMPTY` cells, no state reached has a completed line for
`PLAYER2`, no reply of `PLAYER2` completes one, and no win of `PLAYER2` is ever
reported: a game ends only in a win of `PLAYER1` or in a tie. -/
theorem second_never_wins (g : TicTacToe) (h : AIPlay g) :
    checkWin g.board PLAYER2 = false ∧
    Dialog.wins PLAYER2 ∉ g.dialogs ∧
    ∀ i, g.currentPlayer ≠ PLAYER2 ∨ g.board.get i ≠ EMPTY ∨
      (checkWin (g.board.set i PLAYER2) PLAYER2 = false ∧
        ∃ g1, makeMove g (i.val : Int) = .ok g1 ∧ Dialog.wins PLAYER2 ∉ g1.dialogs) := by
  have hinv := searchInvariant_of_aiPlay g h
  refine ⟨hinv.2.1, hinv.2.2.1, ?_⟩
  intro i
  by_cases hc : g.currentPlayer = PLAYER2
  · by_cases hi : g.board.get i = EMPTY
    · refine Or.inr (Or.inr ⟨(second_reply_no_line g hinv hc i hi).1, ?_⟩)
      obtain ⟨g1, hg1⟩ := makeMove_returns g i
      exact ⟨g1, hg1, (searchInvariant_second g g1 i hinv hc hi hg1).2.2.1⟩
    · exact Or.inr (Or.inl hi)
  · exact Or.inl hc

theorem aiPlay_afterFirstMove : AIPlay afterFirstMove :=
  AIPlay.first initial afterFirstMove
    (AIPlay.start
      { mode := 1, currentPlayer := PLAYER1, board := Mathlib.Vector.replicate 9 EMPTY,
        aiTimers := 0, dialogs := [] }
      (by decide))
    rfl makeAIMove_move1

theorem second_never_wins_witness :
    AIPlay afterFirstMove ∧
    checkWin afterFirstMove.board PLAYER2 = false ∧
    Dialog.wins PLAYER2 ∉ afterFirstMove.dialogs ∧
    ∀ i, afterFirstMove.currentPlayer ≠ PLAYER2 ∨ afterFirstMove.board.get i ≠ EMPTY ∨
      (checkWin (afterFirstMove.board.set i PLAYER2) PLAYER2 = false ∧
        ∃ g1, makeMove afterFirstMove (i.val : Int) = .ok g1 ∧
          Dialog.wins PLAYER2 ∉ g1.dialogs) :=
  ⟨aiPlay_afterFirstMove, second_never_wins afterFirstMove aiPlay_afterFirstMove⟩

/-! ## The balance of marks -/

theorem markCount_set_same (board : Board) (i : Fin 9) (p : Mark)
    (h : board.get i = EMPTY) (hp : p ≠ EMPTY) :
    markCount (board.set i p) p = markCount board p + 1 := by
  unfold markCount
  have hnot : i ∉ Finset.univ.filter fun j : Fin 9 => board.get j = p := by
    simp only [Finset.mem_filter, Finset.mem_univ, true_and, h]
    exact fun e => hp e.symm
  have heq : (Finset.univ.filter fun j : Fin 9 => (board.set i p).get j = p)
      = insert i (Finset.univ.filter fun j : Fin 9 => board.get j = p) := by
    ext j
    simp only [Finset.mem_filter, Finset.mem_univ, true_and, Finset.mem_insert]
    by_cases hij : i = j
    · subst hij
      simp [Mathlib.Vector.get_set_same]
    · rw [Mathlib.Vector.get_set_of_ne hij]
      constructor
      · intro hj
        exact Or.inr hj
      · intro hj
        rcases hj with hj | hj
        · exact absurd hj.symm hij
        · exact hj
  rw [heq, Finset.card_insert_of_not_mem hnot]

theorem markCount_set_other (board : Board) (i : Fin 9) (p q : Mark)
    (h : board.get i = EMPTY) (hq : q ≠ EMPTY) (hqp : q ≠ p) :
    markCount (board.set i p) q = markCount board q := by
  unfold markCount
  congr 1
  ext j
  simp only [Finset.mem_filter, Finset.mem_univ, true_and]
  by_cases hij : i = j
  · subst hij
    rw [Mathlib.Vector.get_set_same, h]
    constructor
    · intro e
      exact absurd e.symm hqp
    · intro e
      exact absurd e.symm hq
  · rw [Mathlib.Vector.get_set_of_ne hij]

theorem markCount_replicate (p : Mark) (hp : p ≠ EMPTY) :
    markCount (Mathlib.Vector.replicate 9 EMPTY : Board) p = 0 := by
  unfold markCount
  rw [Finset.card_eq_zero, Finset.filter_eq_empty_iff]
  intro j _
  rw [get_replicate_empty]
  exact fun e => hp e.symm

theorem reachable_balance (g : TicTacToe) (h : Reachable g) :
    (g.currentPlayer = PLAYER1 ∧ markCount g.board PLAYER1 = markCount g.board PLAYER2) ∨
    (g.currentPlayer = PLAYER2 ∧
      markCount g.board PLAYER1 = markCount g.board PLAYER2 + 1) := by
  have hfresh : ∀ g0 : TicTacToe,
      ((resetGame g0).currentPlayer = PLAYER1 ∧
        markCount (resetGame g0).board PLAYER1 = markCount (resetGame g0).board PLAYER2) ∨
      ((resetGame g0).currentPlayer = PLAYER2 ∧
        markCount (resetGame g0).board PLAYER1
          = markCount (resetGame g0).board PLAYER2 + 1) := by
    intro g0
    rw [resetGame_board, resetGame_currentPlayer,
      markCount_replicate PLAYER1 (by decide), markCount_replicate PLAYER2 (by decide)]
    exact Or.inl ⟨rfl, rfl⟩
  induction h with
  | fresh g0 => exact hfresh g0
  | move g g1 i _ hi hmove ih =>
    cases hw : checkWin (g.board.set i g.currentPlayer) g.currentPlayer
    · cases ht : checkTie (g.board.set i g.currentPlayer)
      · obtain ⟨g2, hg2, hb2, hc2, _, _⟩ := makeMove_continue g i hw ht
        rw [hmove] at hg2
        cases hg2
        rw [hb2, hc2]
        rcases ih with ⟨hc, hn⟩ | ⟨hc, hn⟩
        · right
          rw [hc, markCount_set_same g.board i PLAYER1 hi (by decide),
            markCount_set_other g.board i PLAYER1 PLAYER2 hi (by decide) (by decide), hn]
          exact ⟨rfl, rfl⟩
        · left
          rw [hc, markCount_set_same g.board i PLAYER2 hi (by decide),
            markCount_set_other g.board i PLAYER2 PLAYER1 hi (by decide) (by decide), hn]
          exact ⟨rfl, rfl⟩
      · rw [makeMove_tie g i hw ht] at hmove
        cases hmove
        exact hfresh _
    · rw [makeMove_win g i hw] at hmove
      cases hmove
      exact hfresh _

/-- C20: in every object reached from a reset by moves on `EMPTY` cells (a game
that is over being followed by the reset of `gameOver`), the number of marks
of `PLAYER1` minus the number of marks of `PLAYER2` is `0` when `PLAYER1` is to
move and `1` when `PLAYER2` is to move, every cell holds `EMPTY`, `PLAYER1` or
`PLAYER2`, the board has exactly nine cells, and neither side owns a line. -/
theorem reachable_invariant (g : TicTacToe) (h : Reachable g) :
    ((g.currentPlayer = PLAYER1 ∧
        (markCount g.board PLAYER1 : Int) - (markCount g.board PLAYER2 : Int) = 0) ∨
     (g.currentPlayer = PLAYER2 ∧
        (markCount g.board PLAYER1 : Int) - (markCount g.board PLAYER2 : Int) = 1)) ∧
    (∀ i, g.board.get i = EMPTY ∨ g.board.get i = PLAYER1 ∨ g.board.get i = PLAYER2) ∧
    g.board.toList.length = 9 ∧
    ¬ ownsLine g.board PLAYER1 ∧ ¬ ownsLine g.board PLAYER2 := by
  obtain ⟨_, h1, h2⟩ := reachable_inv g h
  refine ⟨?_, ?_, g.board.toList_length, not_ownsLine_of_checkWin _ _ h1,
    not_ownsLine_of_checkWin _ _ h2⟩
  · rcases reachable_balance g h with ⟨hc, hn⟩ | ⟨hc, hn⟩
    · left
      exact ⟨hc, by omega⟩
    · right
      exact ⟨hc, by omega⟩
  · intro i
    cases g.board.get i
    · exact Or.inl rfl
    · exact Or.inr (Or.inl rfl)
    · exact Or.inr (Or.inr rfl)

theorem reachable_afterCentre : Reachable afterCentre :=
  Reachable.move initial afterCentre 4 (Reachable.fresh _) rfl rfl

theorem reachable_invariant_witness :
    Reachable afterCentre ∧
    ((afterCentre.currentPlayer = PLAYER1 ∧
        (markCount afterCentre.board PLAYER1 : Int)
          - (markCount afterCentre.board PLAYER2 : Int) = 0) ∨
     (afterCentre.currentPlayer = PLAYER2 ∧
        (markCount afterCentre.board PLAYER1 : Int)
          - (markCount afterCentre.board PLAYER2 : Int) = 1)) ∧
    (∀ i, afterCentre.board.get i = EMPTY ∨ afterCentre.board.get i = PLAYER1 ∨
      afterCentre.board.get i = PLAYER2) ∧
    afterCentre.board.toList.length = 9 ∧
    ¬ ownsLine afterCentre.board PLAYER1 ∧ ¬ ownsLine afterCentre.board PLAYER2 :=
  ⟨reachable_afterCentre, reachable_invariant afterCentre reachable_afterCentre⟩

/-! ## After a win, in either mode -/

theorem resetGame_aiTimers (g : TicTacToe) (h : g.mode = 2) :
    (resetGame g).aiTimers = g.aiTimers + 1 := by
  simp only [resetGame, h, true_and]
  rfl

theorem replicate_eq_mkBoard :
    (Mathlib.Vector.replicate 9 EMPTY : Board)
      = mkBoard EMPTY EMPTY EMPTY EMPTY EMPTY EMPTY EMPTY EMPTY EMPTY :=
  rfl

/-- On a fresh board with `PLAYER1` to move, `makeAIMove` places `PLAYER1` on cell 0. -/
theorem makeAIMove_fresh (g : TicTacToe) (hb : g.board = Mathlib.Vector.replicate 9 EMPTY)
    (hc : g.currentPlayer = PLAYER1) :
    ∃ g2, makeAIMove g = .ok g2 ∧ g2.board.get 0 = PLAYER1 ∧ g2.currentPlayer = PLAYER2 := by
  have hbest : bestMove g = .ok (((0 : Fin 9).val : Int), g) :=
    bestCert_sound g EMPTY EMPTY EMPTY EMPTY EMPTY EMPTY EMPTY EMPTY EMPTY
      (hb.trans replicate_eq_mkBoard) 0 0 bestCert_move1
  obtain ⟨h1, h2⟩ := first_mark_continues 0
  rw [← hb, ← hc] at h1 h2
  obtain ⟨g2, hg2, hb2, hc2, _, _⟩ := makeMove_continue g 0 h1 h2
  refine ⟨g2, (makeAIMove_of_bestMove g 0 hbest).trans hg2, ?_, ?_⟩
  · rw [hb2, Mathlib.Vector.get_set_same, hc]
  · rw [hc2, hc]
    rfl

/-- C7, as the code has it: in either mode, when a move completes a line for the
mover, the mover's win is reported at once by the game-over dialog, and the
game is reset by `gameOver` itself (all cells `EMPTY`, `PLAYER1` to move).
Nothing is frozen afterwards.  In player-versus-player mode every click on a
cell `j` in `0..8` is accepted on the fresh board and places `PLAYER1` there.
In player-versus-computer mode a timer for the computer's move is pending and
that move is accepted on the fresh board (it places `PLAYER1` on cell 0);
clicks are ignored meanwhile, as on every turn of the computer. -/
theorem winning_move_resets (g : TicTacToe) (i : Fin 9)
    (h : checkWin (g.board.set i g.currentPlayer) g.currentPlayer = true) :
    ∃ g1, makeMove g (i.val : Int) = .ok g1 ∧
      g1.dialogs = g.dialogs ++ [Dialog.wins g.currentPlayer] ∧
      (∀ j, g1.board.get j = EMPTY) ∧ g1.currentPlayer = PLAYER1 ∧
      ((g.mode ≠ 2 ∧
          ∀ j : Fin 9, ∃ g2, handleButtonClick g1 (j.val : Int) = .ok g2 ∧
            g2.board.get j = PLAYER1 ∧ g2.currentPlayer = PLAYER2) ∨
       (g.mode = 2 ∧ g1.aiTimers = g.aiTimers + 1 ∧
          (∀ j : Fin 9, handleButtonClick g1 (j.val : Int) = .ok g1) ∧
          ∃ g2, timerFired g1 = .ok g2 ∧
            g2.board.get 0 = PLAYER1 ∧ g2.currentPlayer = PLAYER2)) := by
  refine ⟨_, makeMove_win g i h, ?_, ?_, ?_, ?_⟩
  · rw [gameOver, resetGame_dialogs]
  · intro j
    rw [gameOver, resetGame_board]
    exact get_replicate_empty j
  · rw [gameOver, resetGame_currentPlayer]
  · generalize hg1 : gameOver { g with board := g.board.set i g.currentPlayer }
      (Dialog.wins g.currentPlayer) = g1
    have hb : g1.board = Mathlib.Vector.replicate 9 EMPTY := by
      rw [← hg1, gameOver, resetGame_board]
    have hc : g1.currentPlayer = PLAYER1 := by
      rw [← hg1, gameOver, resetGame_currentPlayer]
    have hmode : g1.mode = g.mode := by
      rw [← hg1, gameOver, resetGame_mode]
    by_cases hm : g.mode = 2
    · right
      have ht : g1.aiTimers = g.aiTimers + 1 := by
        rw [← hg1, gameOver]
        exact resetGame_aiTimers _ hm
      refine ⟨hm, ht, ?_, ?_⟩
      · intro j
        unfold handleButtonClick
        rw [dif_pos (fin_range j), if_pos (Or.inr ⟨hmode.trans hm, hc⟩)]
      · have hpos : 0 < g1.aiTimers := by omega
        unfold timerFired
        rw [if_pos hpos]
        exact makeAIMove_fresh { g1 with aiTimers := g1.aiTimers - 1 } hb hc
    · left
      refine ⟨hm, ?_⟩
      intro j
      have hmode2 : g1.mode ≠ 2 := by
        rw [hmode]
        exact hm
      have hclick : handleButtonClick g1 (j.val : Int) = makeMove g1 (j.val : Int) := by
        unfold handleButtonClick
        rw [dif_pos (fin_range j), toNat_fin, if_neg]
        rw [hb, get_replicate_empty]
        simp [hmode2]
      obtain ⟨h1, h2⟩ := first_mark_continues j
      rw [← hb, ← hc] at h1 h2
      obtain ⟨g2, hg2, hb2, hc2, _, _⟩ := makeMove_continue g1 j h1 h2
      refine ⟨g2, by rw [hclick, hg2], ?_, ?_⟩
      · rw [hb2, Mathlib.Vector.get_set_same, hc]
      · rw [hc2, hc]
        rfl

theorem winning_move_resets_witness :
    checkWin (beforeTopRow.board.set 2 beforeTopRow.currentPlayer)
      beforeTopRow.currentPlayer = true ∧
    ∃ g1, makeMove beforeTopRow (((2 : Fin 9).val : Nat) : Int) = .ok g1 ∧
      g1.dialogs = beforeTopRow.dialogs ++ [Dialog.wins beforeTopRow.currentPlayer] ∧
      (∀ j, g1.board.get j = EMPTY) ∧ g1.currentPlayer = PLAYER1 ∧
      ((beforeTopRow.mode ≠ 2 ∧
          ∀ j : Fin 9, ∃ g2, handleButtonClick g1 (j.val : Int) = .ok g2 ∧
            g2.board.get j = PLAYER1 ∧ g2.currentPlayer = PLAYER2) ∨
       (beforeTopRow.mode = 2 ∧ g1.aiTimers = beforeTopRow.aiTimers + 1 ∧
          (∀ j : Fin 9, handleButtonClick g1 (j.val : Int) = .ok g1) ∧
          ∃ g2, timerFired g1 = .ok g2 ∧
            g2.board.get 0 = PLAYER1 ∧ g2.currentPlayer = PLAYER2)) :=
  ⟨by decide, winning_move_resets beforeTopRow 2 (by decide)⟩

/-! ## The reported outcome at a winning move -/

theorem reachable_beforeTopRow : Reachable beforeTopRow :=
  Reachable.move
    (position
      (mkBoard PLAYER1 PLAYER1 EMPTY
               PLAYER2 EMPTY EMPTY
               EMPTY EMPTY EMPTY)
      PLAYER2)
    beforeTopRow 4
    (Reachable.move
      (position
        (mkBoard PLAYER1 EMPTY EMPTY
                 PLAYER2 EMPTY EMPTY
                 EMPTY EMPTY EMPTY)
        PLAYER1)
      (position
        (mkBoard PLAYER1 PLAYER1 EMPTY
                 PLAYER2 EMPTY EMPTY
                 EMPTY EMPTY EMPTY)
        PLAYER2)
      1
      (Reachable.move afterFirstMove
        (position
          (mkBoard PLAYER1 EMPTY EMPTY
                   PLAYER2 EMPTY EMPTY
                   EMPTY EMPTY EMPTY)
          PLAYER1)
        3
        (Reachable.move initial afterFirstMove 0 (Reachable.fresh _) rfl rfl)
        rfl rfl)
      rfl rfl)
    rfl rfl

theorem reported_outcome_agrees_witness :
    Reachable beforeTopRow ∧ beforeTopRow.board.get 2 = EMPTY ∧
    dialogOf (specOutcome (beforeTopRow.board.set 2 beforeTopRow.currentPlayer))
      = [Dialog.wins PLAYER1] ∧
    ∃ g1, makeMove beforeTopRow (((2 : Fin 9).val : Nat) : Int) = .ok g1 ∧
      g1.dialogs = beforeTopRow.dialogs ++
        dialogOf (specOutcome (beforeTopRow.board.set 2 beforeTopRow.currentPlayer)) ∧
      ¬ (ownsLine (beforeTopRow.board.set 2 beforeTopRow.currentPlayer) PLAYER1 ∧
         ownsLine (beforeTopRow.board.set 2 beforeTopRow.currentPlayer) PLAYER2) :=
  ⟨reachable_beforeTopRow, rfl, by decide,
   reported_outcome_agrees beforeTopRow reachable_beforeTopRow 2 rfl⟩

/-! ## The tie-break when `PLAYER2` is to move -/

theorem atLeast_reply_two :
    atLeast 10
      PLAYER1 EMPTY PLAYER2
      EMPTY EMPTY EMPTY
      EMPTY EMPTY EMPTY
      true 1 = true := by
  decide!

theorem atMost_reply_two :
    atMost 10
      PLAYER1 EMPTY PLAYER2
      EMPTY EMPTY EMPTY
      EMPTY EMPTY EMPTY
      true 1 = true := by
  decide!

theorem atLeast_reply_three :
    atLeast 10
      PLAYER1 EMPTY EMPTY
      PLAYER2 EMPTY EMPTY
      EMPTY EMPTY EMPTY
      true 1 = true := by
  decide!

theorem atMost_reply_three :
    atMost 10
      PLAYER1 EMPTY EMPTY
      PLAYER2 EMPTY EMPTY
      EMPTY EMPTY EMPTY
      true 1 = true := by
  decide!

/-- C12 fails as stated: on the board `X _ _ / _ _ _ / _ _ _` with `PLAYER2` to
move, the best score for the side to move is the least one.  The replies of
`PLAYER2` on the cells 1, 2 and 3 score `1` (a lost game) and the reply on cell
4 scores `0`, so the smallest index among the `EMPTY` cells with the best score
is not below 4; `bestMove` returns 1. -/
theorem bestMove_not_smallest_best_for_second :
    afterFirstMove.currentPlayer = PLAYER2 ∧
    bestMove afterFirstMove = .ok (((1 : Fin 9).val : Int), afterFirstMove) ∧
    minimax
      (mkBoard PLAYER1 PLAYER2 EMPTY
               EMPTY EMPTY EMPTY
               EMPTY EMPTY EMPTY)
      true
      = .ok (1,
          mkBoard PLAYER1 PLAYER2 EMPTY
                  EMPTY EMPTY EMPTY
                  EMPTY EMPTY EMPTY) ∧
    minimax
      (mkBoard PLAYER1 EMPTY PLAYER2
               EMPTY EMPTY EMPTY
               EMPTY EMPTY EMPTY)
      true
      = .ok (1,
          mkBoard PLAYER1 EMPTY PLAYER2
                  EMPTY EMPTY EMPTY
                  EMPTY EMPTY EMPTY) ∧
    minimax
      (mkBoard PLAYER1 EMPTY EMPTY
               PLAYER2 EMPTY EMPTY
               EMPTY EMPTY EMPTY)
      true
      = .ok (1,
          mkBoard PLAYER1 EMPTY EMPTY
                  PLAYER2 EMPTY EMPTY
                  EMPTY EMPTY EMPTY) ∧
    minimax
      (mkBoard PLAYER1 EMPTY EMPTY
               EMPTY PLAYER2 EMPTY
               EMPTY EMPTY EMPTY)
      true
      = .ok (0,
          mkBoard PLAYER1 EMPTY EMPTY
                  EMPTY PLAYER2 EMPTY
                  EMPTY EMPTY EMPTY) :=
  ⟨rfl,
   bestCert_sound afterFirstMove
      PLAYER1 EMPTY EMPTY
      EMPTY EMPTY EMPTY
      EMPTY EMPTY EMPTY
      rfl 1 1 bestCert_move2,
   minimax_of_bounds
      PLAYER1 PLAYER2 EMPTY
      EMPTY EMPTY EMPTY
      EMPTY EMPTY EMPTY
      true 1 ⟨by decide, by decide⟩ atLeast_edge_reply atMost_edge_reply,
   minimax_of_bounds
      PLAYER1 EMPTY PLAYER2
      EMPTY EMPTY EMPTY
      EMPTY EMPTY EMPTY
      true 1 ⟨by decide, by decide⟩ atLeast_reply_two atMost_reply_two,
   minimax_of_bounds
      PLAYER1 EMPTY EMPTY
      PLAYER2 EMPTY EMPTY
      EMPTY EMPTY EMPTY
      true 1 ⟨by decide, by decide⟩ atLeast_reply_three atMost_reply_three,
   minimax_of_bounds
      PLAYER1 EMPTY EMPTY
      EMPTY PLAYER2 EMPTY
      EMPTY EMPTY EMPTY
      true 0 ⟨by decide, by decide⟩ atLeast_centre_reply atMost_centre_reply⟩

end XO
